import Mathlib

/-!
Shallow embedding of the seen-set diffing, persistence, pruning and health
logic of `src/udemy_agent_production.py` (class `ProductionUdemyAgent`),
together with machine-checked statements about it.

Modelling conventions:
* Python dicts keyed by strings become association lists with first-key
  lookup, in-place update and append-on-new-key (`dictGet`, `dictSet`,
  `dictDel`), mirroring insertion-ordered Python dicts.
* All `datetime.now()` calls inside one cycle are modelled as a single
  instant `env.now : Int` (seconds since an arbitrary epoch);
  `timedelta(days=30)` becomes `retentionSeconds = 30 * 86400`.
* An ISO timestamp string is `TimeVal.iso t` when
  `datetime.fromisoformat(x.replace('Z', '+00:00'))` parses it to a naive
  datetime at instant `t`, `TimeVal.isoAware t` when it parses to an
  offset-aware datetime at instant `t` (comparing such a value with the
  naive pruning cutoff raises `TypeError`), and `TimeVal.raw s` when
  parsing raises.  A dict key that may be missing is an `Option` field
  (`metadata.get` defaults).
* The fallible collaborators (Selenium scraper construction and fetch, the
  email notifier, the scraper restart, the backup copy of a corrupt state
  file) are modelled by explicit outcome values in `CycleEnv`; an
  exception at any of those points flows into the single `except` branch
  of `check_for_new_courses` (modelled by `cycleExcept`, source lines
  233-244).
* `_save_seen_courses` catches its own exceptions and never raises into
  the cycle, so a save is modelled as an event (`SaveEvent`) that records
  the snapshot handed to it; the list of such events per cycle is part of
  the cycle result.
-/

/-- Timestamp value as stored in the persisted JSON: `iso t` stands for an
ISO-format string that `datetime.fromisoformat` (after the `Z`
replacement) parses to a naive (offset-free) datetime at instant `t`;
`isoAware t` stands for a string that parses to an offset-aware datetime
at instant `t` (for example a trailing `Z` rewritten to `+00:00` by the
replace at source line 275); `raw s` stands for a string (or non-string
value) on which parsing raises. -/
inductive TimeVal
  | iso (t : Int)
  | isoAware (t : Int)
  | raw (s : String)
deriving DecidableEq

/-- Model of `datetime.fromisoformat(x.replace('Z', '+00:00'))`: `some t`
when parsing succeeds (whether the result is naive or offset-aware),
`none` when it raises. -/
def parseTime : TimeVal → Option Int
  | .iso t => some t
  | .isoAware t => some t
  | .raw _ => none

/-- One persisted seen-course record (source lines 177-183).  Keys that a
hand-edited or legacy file may lack are `Option` fields, matching the
`metadata.get(...)` accesses in the source. -/
structure SeenEntry where
  title : String
  url : String
  first_seen : Option TimeVal
  last_seen : Option TimeVal
  seen_count : Option Nat
deriving DecidableEq

/-- The in-memory `self.seen_courses` dict: item id to seen record. -/
abbrev SeenMap := List (String × SeenEntry)

/-- Python `d.get(key)`: first binding of `key`, if any. -/
def dictGet {V : Type} : List (String × V) → String → Option V
  | [], _ => none
  | (k, v) :: rest, key => if k = key then some v else dictGet rest key

/-- Python `d[key] = val`: replace the binding in place if the key is
present, else append it (insertion order of Python dicts). -/
def dictSet {V : Type} : List (String × V) → String → V → List (String × V)
  | [], key, val => [(key, val)]
  | (k, v) :: rest, key, val =>
      if k = key then (key, val) :: rest else (k, v) :: dictSet rest key val

/-- Python `del d[key]`: drop every binding of `key` (a Python dict holds
at most one). -/
def dictDel {V : Type} : List (String × V) → String → List (String × V)
  | [], _ => []
  | (k, v) :: rest, key =>
      if k = key then dictDel rest key else (k, v) :: dictDel rest key

/-- Keys of an association list, in order. -/
def dictKeys {V : Type} (m : List (String × V)) : List String := m.map (fun p => p.1)

/-- The invariant every Python dict satisfies: no duplicate keys. -/
def dictWF {V : Type} (m : List (String × V)) : Prop := (dictKeys m).Nodup

instance {V : Type} (m : List (String × V)) : Decidable (dictWF m) := by
  unfold dictWF; infer_instance

/-- Last element of a list satisfying a predicate, phrased as the fold the
Python `for` loops perform. -/
def pickLast {α : Type} (p : α → Prop) [DecidablePred p] (l : List α) : Option α :=
  l.foldl (fun acc c => if p c then some c else acc) none

/-- One candidate course as produced by the scraper for one poll
(`course['id']`, `course['title']`, `course['url']`). -/
structure Item where
  id : String
  title : String
  url : String
deriving DecidableEq

/-- Values of `self.health_status['status']`. -/
inductive HealthState
  | starting
  | healthy
  | degraded
  | error
  | stopped
deriving DecidableEq

/-- The mutable agent state that the cycle reads and writes: the seen-set
dict, whether `self.scraper` is non-`None`, the failure counters of the
health design, and the health-status counters. -/
structure AgentState where
  seen_courses : SeenMap
  scraperUp : Bool
  consecutive_failures : Nat
  max_consecutive_failures : Nat
  restart_on_failure : Bool
  last_successful_check : Option Int
  status : HealthState
  last_check : Option Int
  courses_found : Nat
  emails_sent : Nat
  errors : Nat
deriving DecidableEq

/-- Outcome of `self.scraper.get_free_programming_courses()`: it may raise,
return `None` (source line 157), or return a list of items. -/
inductive FetchOutcome
  | raises
  | retNone
  | ret (items : List Item)
deriving DecidableEq

/-- Outcome of `self.notifier.send_notification(...)`: raise, or return a
success boolean. -/
inductive NotifyOutcome
  | raises
  | ret (ok : Bool)
deriving DecidableEq

/-- Outcome of `_restart_scraper`'s fallible steps: everything succeeds;
`self.scraper.driver.quit()` raises (the old scraper object stays in
place); or `SeleniumUdemyScraper(...)` raises after the old scraper was
discarded (`self.scraper` is left `None`). -/
inductive RestartOutcome
  | ok
  | quitRaises
  | ctorRaises
deriving DecidableEq

/-- The external world of one cycle: whether constructing a scraper would
raise, what the fetch returns, what the notifier returns, what a restart
attempt would do, and the current instant. -/
structure CycleEnv where
  initRaises : Bool
  fetch : FetchOutcome
  notify : NotifyOutcome
  restart : RestartOutcome
  now : Int
deriving DecidableEq

/-- One invocation of `_save_seen_courses`, tagged by the call site in the
source: line 205 (after a successful notification), line 222 (end of every
completed cycle), or line 287 (inside `_cleanup_old_courses`, only when
entries were removed). -/
inductive SaveEvent
  | afterNotifySuccess (snap : SeenMap)
  | endOfCycle (snap : SeenMap)
  | afterPrune (snap : SeenMap)
deriving DecidableEq

/-- The snapshot a save event persisted. -/
def SaveEvent.snapshot : SaveEvent → SeenMap
  | .afterNotifySuccess m => m
  | .endOfCycle m => m
  | .afterPrune m => m

/-- Result of one `check_for_new_courses` call: the state after the call,
the returned boolean, whether the `except` branch ran, the save events, the
batch handed to the notifier (if it was invoked), whether
`_restart_scraper` was invoked, and the cycle's local `new_courses`,
`current_course_ids` and `courses_to_remove` values (for stating
properties). -/
structure CycleRes where
  state : AgentState
  ok : Bool
  raised : Bool
  saves : List SaveEvent
  notifiedBatch : Option (List Item)
  restartFired : Bool
  newBatch : List Item
  pending : SeenMap
  pruned : List String
deriving DecidableEq

/-- The record built for one fetched course (source lines 177-183): keep
`first_seen` of the existing record (default now), stamp `last_seen` with
now, and increment the prior `seen_count` (missing prior count reads as
0). -/
def mkEntry (seen : SeenMap) (now : Int) (c : Item) : SeenEntry :=
  { title := c.title
    url := c.url
    first_seen := some (match dictGet seen c.id with
      | some e => e.first_seen.getD (TimeVal.iso now)
      | none => TimeVal.iso now)
    last_seen := some (TimeVal.iso now)
    seen_count := some ((match dictGet seen c.id with
      | some e => e.seen_count.getD 0
      | none => 0) + 1) }

/-- The record as it ends up in `current_course_ids`: for an unseen id the
source additionally overwrites `first_seen` with now (line 187). -/
def mkEntryCommitted (seen : SeenMap) (now : Int) (c : Item) : SeenEntry :=
  if (dictGet seen c.id).isSome then mkEntry seen now c
  else { mkEntry seen now c with first_seen := some (TimeVal.iso now) }

/-- One iteration of the diff loop (source lines 168-188): record the
course in `current_course_ids`, and append it to `new_courses` when its id
is not in `self.seen_courses`. -/
def diffStep (seen : SeenMap) (now : Int) (acc : List Item × SeenMap) (c : Item) :
    List Item × SeenMap :=
  if (dictGet seen c.id).isSome then
    (acc.1, dictSet acc.2 c.id (mkEntry seen now c))
  else
    (acc.1 ++ [c], dictSet acc.2 c.id { mkEntry seen now c with first_seen := some (TimeVal.iso now) })

/-- The whole diff loop: produces (`new_courses`, `current_course_ids`). -/
def diffCourses (seen : SeenMap) (now : Int) (courses : List Item) :
    List Item × SeenMap :=
  courses.foldl (diffStep seen now) ([], [])

/-- Source lines 200-203: after a successful notification, copy the
`current_course_ids` record of every course in `new_courses` into
`self.seen_courses`. -/
def commitNew (seen : SeenMap) (newCourses : List Item) (cur : SeenMap) : SeenMap :=
  newCourses.foldl (fun m c =>
    match dictGet cur c.id with
    | some e => dictSet m c.id e
    | none => m) seen

/-- Source lines 218-220: for every `current_course_ids` record whose id is
already in `self.seen_courses`, overwrite the stored record. -/
def commitPending (seen cur : SeenMap) : SeenMap :=
  cur.foldl (fun m p =>
    if (dictGet m p.1).isSome then dictSet m p.1 p.2 else m) seen

/-- The retention window: `timedelta(days=30)` in seconds. -/
def retentionSeconds : Int := 30 * 86400

/-- Source lines 272-280, the per-entry try block of the prune pass: an
entry is collected for removal exactly when its `last_seen` parses to a
naive datetime older than the naive cutoff.  A missing (or falsy)
`last_seen` is skipped by the check at line 273; a `last_seen` on which
`fromisoformat` raises is kept by the bare `except` at lines 278-280; and
a `last_seen` that parses to an offset-aware datetime is also kept,
because the naive-vs-aware comparison `last_seen_date < cutoff_date` at
line 276 raises `TypeError`, which the same bare `except` swallows. -/
def staleEntry (e : SeenEntry) (cutoff : Int) : Bool :=
  match e.last_seen with
  | some (.iso t) => decide (t < cutoff)
  | some (.isoAware _) => false
  | some (.raw _) => false
  | none => false

/-- Model of `_cleanup_old_courses` (source lines 259-287): collect the
ids of stale entries, delete them, and report the removed ids (the caller
persists again exactly when this list is non-empty).  It inspects only the
seen-set and the clock, never the current fetch result. -/
def cleanup_old_courses (seen : SeenMap) (now : Int) : SeenMap × List String :=
  let cutoff := now - retentionSeconds
  let toRemove := (seen.filter (fun p => staleEntry p.2 cutoff)).map (fun p => p.1)
  (toRemove.foldl (fun m k => dictDel m k) seen, toRemove)

/-- Model of `_restart_scraper` (source lines 246-257): on success the
scraper is recreated and `consecutive_failures` is reset to 0; if either
fallible step raises, the exception is caught and logged, and in
particular `consecutive_failures` is left unchanged. -/
def restart_scraper (s : AgentState) (out : RestartOutcome) : AgentState :=
  match out with
  | .ok => { s with scraperUp := true, consecutive_failures := 0 }
  | .quitRaises => s
  | .ctorRaises => { s with scraperUp := false }

/-- The `except` branch of `check_for_new_courses` (source lines 233-244):
increment `consecutive_failures` and the error counter, set the status to
`error`, invoke `_restart_scraper` when the failure threshold is reached,
and return `False`. -/
def cycleExcept (s : AgentState) (out : RestartOutcome) (notified : Option (List Item))
    (newBatch : List Item) (pending : SeenMap) : CycleRes :=
  let s1 : AgentState :=
    { s with consecutive_failures := s.consecutive_failures + 1
             errors := s.errors + 1
             status := HealthState.error }
  if s1.restart_on_failure = true ∧ s1.max_consecutive_failures ≤ s1.consecutive_failures then
    { state := restart_scraper s1 out, ok := false, raised := true, saves := []
      notifiedBatch := notified, restartFired := true, newBatch := newBatch
      pending := pending, pruned := [] }
  else
    { state := s1, ok := false, raised := true, saves := []
      notifiedBatch := notified, restartFired := false, newBatch := newBatch
      pending := pending, pruned := [] }

/-- Tail of every completing cycle (source lines 217-231): commit the
pending updates for already-seen ids, persist, prune (persisting again
inside the prune exactly when something was removed), mark the cycle
healthy and successful, and return `True`. -/
def cycleFinish (s : AgentState) (env : CycleEnv) (newBatch : List Item) (cur : SeenMap)
    (saves0 : List SaveEvent) (notified : Option (List Item)) : CycleRes :=
  let m1 := commitPending s.seen_courses cur
  let cl := cleanup_old_courses m1 env.now
  { state := { s with seen_courses := cl.1
                      status := HealthState.healthy
                      last_successful_check := some env.now }
    ok := true
    raised := false
    saves := (saves0 ++ [SaveEvent.endOfCycle m1]) ++
      (if cl.2 = [] then [] else [SaveEvent.afterPrune cl.1])
    notifiedBatch := notified
    restartFired := false
    newBatch := newBatch
    pending := cur
    pruned := cl.2 }

/-- The cycle body from the point where a course list is in hand (source
lines 161-231): count the fetched courses, diff against the seen-set, and
if the new batch is non-empty invoke the notifier — on success commit the
new records (and persist, line 205) and reset `consecutive_failures`; on
failure only bump the failure and error counters, deliberately leaving the
new records uncommitted. -/
def cycleAfterFetch (s : AgentState) (env : CycleEnv) (courses : List Item) : CycleRes :=
  let s1 : AgentState := { s with courses_found := s.courses_found + courses.length }
  let dc := diffCourses s1.seen_courses env.now courses
  if dc.1 = [] then
    cycleFinish s1 env dc.1 dc.2 [] none
  else
    match env.notify with
    | .raises => cycleExcept s1 env.restart (some dc.1) dc.1 dc.2
    | .ret true =>
        let s2 : AgentState :=
          { s1 with emails_sent := s1.emails_sent + 1
                    seen_courses := commitNew s1.seen_courses dc.1 dc.2 }
        let s3 : AgentState := { s2 with consecutive_failures := 0 }
        cycleFinish s3 env dc.1 dc.2 [SaveEvent.afterNotifySuccess s2.seen_courses] (some dc.1)
    | .ret false =>
        let s2 : AgentState :=
          { s1 with consecutive_failures := s1.consecutive_failures + 1
                    errors := s1.errors + 1 }
        cycleFinish s2 env dc.1 dc.2 [] (some dc.1)

/-- Model of `check_for_new_courses` (source lines 143-244): stamp the
health check time, build the scraper if absent, fetch (a `None` result is
replaced by the empty list, line 157-159), then run the diff-notify-
persist-prune body; any exception from a fallible step flows into
`cycleExcept`. -/
def check_for_new_courses (s : AgentState) (env : CycleEnv) : CycleRes :=
  let s1 : AgentState := { s with last_check := some env.now }
  if s1.scraperUp = false ∧ env.initRaises = true then
    cycleExcept s1 env.restart none [] []
  else
    let s2 : AgentState := { s1 with scraperUp := true }
    match env.fetch with
    | .raises => cycleExcept s2 env.restart none [] []
    | .retNone => cycleAfterFetch s2 env []
    | .ret courses => cycleAfterFetch s2 env courses

/-- Run a sequence of cycles, returning the final state and the per-cycle
results in order. -/
def runCycles : AgentState → List CycleEnv → AgentState × List CycleRes
  | s, [] => (s, [])
  | s, e :: rest =>
      let r := check_for_new_courses s e
      let tail := runCycles r.state rest
      (tail.1, r :: tail.2)

/-- Number of cycles of a run in which `_restart_scraper` was invoked. -/
def restartCount (results : List CycleRes) : Nat :=
  (results.filter (fun r => r.restartFired)).length

/-- Value found under the `seen_courses` key of the state file: a dict, or
some other JSON value (source line 108 checks `isinstance(..., dict)`). -/
inductive SeenValue
  | dictVal (m : SeenMap)
  | nonDict
deriving DecidableEq

/-- The on-disk state file as `_load_seen_courses` can encounter it:
absent; present but such that opening/`json.load`/attribute access raises;
or a parsed JSON object whose `seen_courses` key may be absent. -/
inductive StoreFile
  | missing
  | malformed
  | parsed (seen : Option SeenValue)
deriving DecidableEq

/-- What a call of `_load_seen_courses` does: return a seen-set (recording
whether a backup copy of a corrupt file was made), or raise. -/
inductive LoadOutcome
  | ok (seen : SeenMap) (backupMade : Bool)
  | raised
deriving DecidableEq

/-- Model of `_load_seen_courses` (source lines 99-122).  A missing file
is an empty set; a malformed file is backed up with `shutil.copy` and
treated as empty — but the copy itself is a fallible filesystem call
inside the `except` handler (line 120), so if it raises (`copyOk = false`)
the exception leaves the loader. -/
def load_seen_courses : StoreFile → Bool → LoadOutcome
  | .missing, _ => .ok [] false
  | .malformed, copyOk => if copyOk then .ok [] true else .raised
  | .parsed none, _ => .ok [] false
  | .parsed (some (.dictVal m)), _ => .ok m false
  | .parsed (some .nonDict), _ => .ok [] false

/-- The agent state right after `__init__` (source lines 34-57), given the
loaded seen-set. -/
def initialAgentState (seen : SeenMap) : AgentState :=
  { seen_courses := seen
    scraperUp := false
    consecutive_failures := 0
    max_consecutive_failures := 5
    restart_on_failure := true
    last_successful_check := none
    status := HealthState.starting
    last_check := none
    courses_found := 0
    emails_sent := 0
    errors := 0 }

/-- Sample items and states used to evaluate the model at concrete inputs. -/
def itemA : Item := { id := "a", title := "A", url := "ua" }

/-- Second sample item, unseen in the sample states below. -/
def itemB : Item := { id := "b", title := "B", url := "ub" }

/-- A seen record for `itemA` stored at instant 0 with two sightings. -/
def entryA : SeenEntry :=
  { title := "A", url := "ua", first_seen := some (.iso 0), last_seen := some (.iso 0),
    seen_count := some 2 }

/-- Sample seen-set containing only `itemA`. -/
def seenA : SeenMap := [("a", entryA)]

/-- Agent state with `itemA` already seen and a live scraper. -/
def stateA : AgentState := { initialAgentState seenA with scraperUp := true }

/-- Agent state with an empty seen-set and a live scraper. -/
def stateEmpty : AgentState := { initialAgentState [] with scraperUp := true }

/-- Agent state with three consecutive failures already recorded. -/
def stateCf3 : AgentState :=
  { initialAgentState [] with scraperUp := true, consecutive_failures := 3 }

/-- Cycle environment with the given fetch and notify outcomes, a working
restart path and clock value 100. -/
def envOf (f : FetchOutcome) (n : NotifyOutcome) : CycleEnv :=
  { initRaises := false, fetch := f, notify := n, restart := .ok, now := 100 }

/-- Environment whose fetch raises (a failing cycle). -/
def failEnv : CycleEnv := envOf .raises (.ret true)

/-- Failing cycle whose recovery attempt also fails while recreating the
scraper. -/
def failEnvBad : CycleEnv := { failEnv with restart := .ctorRaises }

/-- Environment fetching `[itemB, itemA]` with a failing notifier. -/
def envBAfalse : CycleEnv := envOf (.ret [itemB, itemA]) (.ret false)

/-- Environment fetching `[itemA, itemB]` with a successful notifier. -/
def envABtrue : CycleEnv := envOf (.ret [itemA, itemB]) (.ret true)

/-- Environment with an empty fetch result. -/
def envEmptyFetch : CycleEnv := envOf (.ret []) (.ret true)

/-- Entry last seen 31 days before instant 0 (stale at `now = 0`). -/
def entryStale : SeenEntry :=
  { title := "s", url := "us", first_seen := some (.iso (-2678400)),
    last_seen := some (.iso (-2678400)), seen_count := some 1 }

/-- Entry last seen 29 days before instant 0 (still fresh at `now = 0`). -/
def entryFresh : SeenEntry :=
  { title := "f", url := "uf", first_seen := some (.iso (-2505600)),
    last_seen := some (.iso (-2505600)), seen_count := some 1 }

/-- Entry whose stored `last_seen` does not parse. -/
def entryOdd : SeenEntry :=
  { title := "o", url := "uo", first_seen := some (.iso 0),
    last_seen := some (.raw "yesterday"), seen_count := some 1 }

/-- Entry whose `last_seen` is 31 days before instant 0 but parses to an
offset-aware datetime (a trailing `Z` form). -/
def entryAwareStale : SeenEntry :=
  { title := "z", url := "uz", first_seen := some (.isoAware (-2678400)),
    last_seen := some (.isoAware (-2678400)), seen_count := some 1 }

/-- Seen-set mixing a stale naive, a fresh, an unparsable and a stale
offset-aware entry. -/
def pruneMap : SeenMap :=
  [("old", entryStale), ("fresh", entryFresh), ("odd", entryOdd), ("aware", entryAwareStale)]

/-! ### Association-list lemmas -/

theorem dictGet_dictSet {V : Type} (m : List (String × V)) (k k' : String) (v : V) :
    dictGet (dictSet m k v) k' = if k = k' then some v else dictGet m k' := by
  induction m with
  | nil => simp [dictSet, dictGet]
  | cons p rest ih =>
    obtain ⟨pk, pv⟩ := p
    simp only [dictSet, dictGet]
    by_cases h1 : pk = k <;> by_cases h2 : k = k' <;> by_cases h3 : pk = k' <;>
      simp_all [dictGet]

theorem dictGet_dictDel {V : Type} (m : List (String × V)) (k k' : String) :
    dictGet (dictDel m k) k' = if k' = k then none else dictGet m k' := by
  induction m with
  | nil => simp [dictDel, dictGet]
  | cons p rest ih =>
    obtain ⟨pk, pv⟩ := p
    simp only [dictDel, dictGet]
    by_cases h1 : pk = k <;> by_cases h2 : k' = k <;> by_cases h3 : pk = k' <;>
      simp_all [dictGet]

theorem dictGet_eq_none_iff {V : Type} (m : List (String × V)) (k : String) :
    dictGet m k = none ↔ k ∉ dictKeys m := by
  induction m with
  | nil => simp [dictGet, dictKeys]
  | cons p rest ih =>
    obtain ⟨pk, pv⟩ := p
    by_cases h : pk = k <;> simp_all [dictGet, dictKeys, eq_comm]

theorem mem_of_dictGet {V : Type} {m : List (String × V)} {k : String} {v : V}
    (h : dictGet m k = some v) : (k, v) ∈ m := by
  induction m with
  | nil => simp [dictGet] at h
  | cons p rest ih =>
    obtain ⟨pk, pv⟩ := p
    by_cases h1 : pk = k
    · subst h1
      simp [dictGet] at h
      simp [h]
    · simp [dictGet, h1] at h
      exact List.mem_cons_of_mem _ (ih h)

theorem dictGet_of_mem {V : Type} {m : List (String × V)} {k : String} {v : V}
    (hwf : dictWF m) (h : (k, v) ∈ m) : dictGet m k = some v := by
  induction m with
  | nil => simp at h
  | cons p rest ih =>
    obtain ⟨pk, pv⟩ := p
    rcases List.mem_cons.1 h with h1 | h1
    · rw [Prod.mk.injEq] at h1
      obtain ⟨h2, h3⟩ := h1
      subst h2; subst h3
      simp [dictGet]
    · have hk : k ∈ dictKeys rest := List.mem_map_of_mem (fun p => p.1) h1
      have hne : pk ≠ k := by
        intro he
        subst he
        exact (List.nodup_cons.1 hwf).1 hk
      simp only [dictGet, hne, if_false]
      exact ih (List.nodup_cons.1 hwf).2 h1

theorem dictKeys_dictSet {V : Type} (m : List (String × V)) (k : String) (v : V) :
    dictKeys (dictSet m k v) =
      if (dictGet m k).isSome then dictKeys m else dictKeys m ++ [k] := by
  induction m with
  | nil => simp [dictSet, dictGet, dictKeys]
  | cons p rest ih =>
    obtain ⟨pk, pv⟩ := p
    by_cases h : pk = k
    · simp [dictSet, dictGet, dictKeys, h]
    · have ih' : List.map (fun p : String × V => p.1) (dictSet rest k v) =
          if (dictGet rest k).isSome then List.map (fun p : String × V => p.1) rest
          else List.map (fun p : String × V => p.1) rest ++ [k] := ih
      simp only [dictSet, dictGet, dictKeys, h, if_false, List.map_cons, ih']
      split <;> simp

theorem dictWF_dictSet {V : Type} {m : List (String × V)} (k : String) (v : V)
    (h : dictWF m) : dictWF (dictSet m k v) := by
  unfold dictWF
  rw [dictKeys_dictSet]
  cases hg : dictGet m k with
  | some w => simpa [hg] using h
  | none =>
    have hk : k ∉ dictKeys m := (dictGet_eq_none_iff m k).1 hg
    have h' : (dictKeys m).Nodup := h
    simp [hg, List.nodup_append, h', hk]

theorem dictKeys_dictDel_sublist {V : Type} (m : List (String × V)) (k : String) :
    (dictKeys (dictDel m k)).Sublist (dictKeys m) := by
  induction m with
  | nil => simp [dictDel, dictKeys]
  | cons p rest ih =>
    obtain ⟨pk, pv⟩ := p
    by_cases h : pk = k <;> simp only [dictDel, h, if_true, if_false, dictKeys, List.map_cons]
    · exact ih.cons _
    · exact ih.cons₂ _

theorem dictWF_dictDel {V : Type} {m : List (String × V)} (k : String) (h : dictWF m) :
    dictWF (dictDel m k) :=
  List.Nodup.sublist (dictKeys_dictDel_sublist m k) h

/-! ### pickLast lemmas -/

theorem foldl_pick_init {α : Type} (p : α → Prop) [DecidablePred p] (l : List α) (o : Option α) :
    l.foldl (fun acc c => if p c then some c else acc) o =
      match pickLast p l with
      | some x => some x
      | none => o := by
  induction l generalizing o with
  | nil => simp [pickLast]
  | cons c cs ih =>
    show cs.foldl _ (if p c then some c else o) = _
    rw [ih]
    have h2 : pickLast p (c :: cs) =
        match pickLast p cs with
        | some x => some x
        | none => (if p c then some c else none) := by
      show cs.foldl _ (if p c then some c else none) = _
      rw [ih]
    rw [h2]
    cases pickLast p cs <;> by_cases hc : p c <;> simp [hc]

theorem pickLast_cons {α : Type} (p : α → Prop) [DecidablePred p] (c : α) (l : List α) :
    pickLast p (c :: l) =
      match pickLast p l with
      | some x => some x
      | none => if p c then some c else none := by
  show l.foldl _ (if p c then some c else none) = _
  rw [foldl_pick_init]

theorem pickLast_mem {α : Type} {p : α → Prop} [DecidablePred p] {l : List α} {x : α}
    (h : pickLast p l = some x) : x ∈ l ∧ p x := by
  induction l with
  | nil => simp [pickLast] at h
  | cons c cs ih =>
    rw [pickLast_cons] at h
    cases hr : pickLast p cs with
    | some y =>
      rw [hr] at h
      obtain ⟨h1, h2⟩ := ih (hr.trans (congrArg some (Option.some.inj h)))
      exact ⟨List.mem_cons_of_mem _ h1, h2⟩
    | none =>
      rw [hr] at h
      by_cases hc : p c
      · simp [hc] at h
        subst h
        exact ⟨List.mem_cons_self _ _, hc⟩
      · simp [hc] at h

theorem pickLast_eq_none {α : Type} {p : α → Prop} [DecidablePred p] {l : List α} :
    pickLast p l = none ↔ ∀ x ∈ l, ¬ p x := by
  induction l with
  | nil => simp [pickLast]
  | cons c cs ih =>
    rw [pickLast_cons]
    cases hr : pickLast p cs with
    | some y =>
      simp only [hr]
      constructor
      · intro h; exact absurd h (by simp)
      · intro h
        obtain ⟨hy, hpy⟩ := pickLast_mem hr
        exact absurd (h y (List.mem_cons_of_mem _ hy)) (not_not.2 hpy)
    | none =>
      have hcs := ih.1 hr
      by_cases hc : p c <;> simp_all [hr]

/-! ### Diff-loop characterization -/

theorem diffStep_eq (seen : SeenMap) (now : Int) (acc : List Item × SeenMap) (c : Item) :
    diffStep seen now acc c =
      ((if (dictGet seen c.id).isSome then acc.1 else acc.1 ++ [c]),
        dictSet acc.2 c.id (mkEntryCommitted seen now c)) := by
  unfold diffStep mkEntryCommitted
  by_cases h : (dictGet seen c.id).isSome <;> simp [h]

theorem diffCourses_fst_aux (seen : SeenMap) (now : Int) (courses : List Item) :
    ∀ acc : List Item × SeenMap,
      (courses.foldl (diffStep seen now) acc).1 =
        acc.1 ++ courses.filter (fun c => (dictGet seen c.id).isNone) := by
  induction courses with
  | nil => intro acc; simp
  | cons c cs ih =>
    intro acc
    rw [List.foldl_cons, ih, diffStep_eq]
    cases hg : dictGet seen c.id with
    | some e => simp [List.filter_cons, hg]
    | none => simp [List.filter_cons, hg]

theorem diffCourses_newBatch (seen : SeenMap) (now : Int) (courses : List Item) :
    (diffCourses seen now courses).1 =
      courses.filter (fun c => (dictGet seen c.id).isNone) := by
  unfold diffCourses
  rw [diffCourses_fst_aux]
  simp

theorem diffCourses_snd_aux (seen : SeenMap) (now : Int) (courses : List Item) (id : String) :
    ∀ acc : List Item × SeenMap,
      dictGet (courses.foldl (diffStep seen now) acc).2 id =
        match pickLast (fun c : Item => c.id = id) courses with
        | some c => some (mkEntryCommitted seen now c)
        | none => dictGet acc.2 id := by
  induction courses with
  | nil => intro acc; simp [pickLast]
  | cons c cs ih =>
    intro acc
    rw [List.foldl_cons, ih, pickLast_cons]
    cases h : pickLast (fun c : Item => c.id = id) cs with
    | some x => simp
    | none =>
      rw [diffStep_eq]
      by_cases hc : c.id = id
      · simp [dictGet_dictSet, hc]
      · simp [dictGet_dictSet, hc]

theorem diffCourses_get (seen : SeenMap) (now : Int) (courses : List Item) (id : String) :
    dictGet (diffCourses seen now courses).2 id =
      match pickLast (fun c : Item => c.id = id) courses with
      | some c => some (mkEntryCommitted seen now c)
      | none => none := by
  unfold diffCourses
  rw [diffCourses_snd_aux]
  cases pickLast (fun c : Item => c.id = id) courses <;> simp [dictGet]

theorem diffCourses_wf (seen : SeenMap) (now : Int) (courses : List Item) :
    dictWF (diffCourses seen now courses).2 := by
  have main : ∀ acc : List Item × SeenMap, dictWF acc.2 →
      dictWF (courses.foldl (diffStep seen now) acc).2 := by
    induction courses with
    | nil => intro acc h; exact h
    | cons c cs ih =>
      intro acc h
      rw [List.foldl_cons]
      refine ih _ ?_
      rw [diffStep_eq]
      exact dictWF_dictSet _ _ h
  exact main ([], []) (by simp [dictWF, dictKeys])

/-! ### Commit-loop characterization -/

theorem commitNew_get (cur : SeenMap) (newCourses : List Item) (m : SeenMap) (id : String) :
    dictGet (commitNew m newCourses cur) id =
      if (∃ c ∈ newCourses, c.id = id) ∧ (dictGet cur id).isSome then dictGet cur id
      else dictGet m id := by
  induction newCourses generalizing m with
  | nil => simp [commitNew]
  | cons c cs ih =>
    show dictGet (List.foldl _ (match dictGet cur c.id with
      | some e => dictSet m c.id e
      | none => m) cs) id = _
    rw [show ∀ m', dictGet (List.foldl (fun m c =>
        match dictGet cur c.id with
        | some e => dictSet m c.id e
        | none => m) m' cs) id = _ from fun m' => ih m']
    by_cases hc : c.id = id
    · subst hc
      cases hcur : dictGet cur c.id with
      | some e =>
        simp only [hcur, dictGet_dictSet]
        by_cases hcs : (∃ x ∈ cs, x.id = c.id) <;> simp [hcs, hcur]
      | none => simp [hcur]
    · cases hcur : dictGet cur c.id with
      | some e =>
        simp only [hcur, dictGet_dictSet, hc, if_false]
        by_cases hcs : ((∃ x ∈ cs, x.id = id) ∧ (dictGet cur id).isSome) <;>
          simp_all [List.exists_mem_cons_iff]
      | none =>
        by_cases hcs : ((∃ x ∈ cs, x.id = id) ∧ (dictGet cur id).isSome) <;>
          simp_all [List.exists_mem_cons_iff]

theorem commitPending_get (cur : SeenMap) (m : SeenMap) (id : String) :
    dictGet (commitPending m cur) id =
      match dictGet m id, pickLast (fun q : String × SeenEntry => q.1 = id) cur with
      | none, _ => none
      | some _, some q => some q.2
      | some v, none => some v := by
  induction cur generalizing m with
  | nil => cases h : dictGet m id <;> simp [commitPending, pickLast, h]
  | cons p cs ih =>
    show dictGet (List.foldl _ (if (dictGet m p.1).isSome then dictSet m p.1 p.2 else m) cs) id = _
    rw [show ∀ m', dictGet (List.foldl (fun m p =>
        if (dictGet m p.1).isSome then dictSet m p.1 p.2 else m) m' cs) id = _ from
        fun m' => ih m', pickLast_cons]
    by_cases hp : p.1 = id
    · cases hm : dictGet m id with
      | some v =>
        have hstep : dictGet (if (dictGet m p.1).isSome then dictSet m p.1 p.2 else m) id
            = some p.2 := by
          rw [hp, hm]
          simp [dictGet_dictSet]
        rw [hstep]
        cases hcs : pickLast (fun q : String × SeenEntry => q.1 = id) cs <;> simp [hp]
      | none =>
        have hstep : (if (dictGet m p.1).isSome then dictSet m p.1 p.2 else m) = m := by
          rw [hp, hm]
          simp
        rw [hstep, hm]
    · have hstep : dictGet (if (dictGet m p.1).isSome then dictSet m p.1 p.2 else m) id
          = dictGet m id := by
        by_cases hq : (dictGet m p.1).isSome <;> simp [hq, dictGet_dictSet, hp]
      rw [hstep]
      cases hm : dictGet m id <;>
        cases hcs : pickLast (fun q : String × SeenEntry => q.1 = id) cs <;> simp [hp]

theorem pickLast_pair_eq_dictGet {V : Type} {m : List (String × V)} (hwf : dictWF m)
    (k : String) :
    pickLast (fun q : String × V => q.1 = k) m =
      match dictGet m k with
      | some v => some (k, v)
      | none => none := by
  induction m with
  | nil => simp [pickLast, dictGet]
  | cons p rest ih =>
    obtain ⟨pk, pv⟩ := p
    rw [pickLast_cons]
    by_cases hp : pk = k
    · subst hp
      have hnone : pickLast (fun q : String × V => q.1 = pk) rest = none := by
        rw [pickLast_eq_none]
        intro q hq hq1
        have : pk ∈ dictKeys rest := hq1 ▸ List.mem_map_of_mem (fun p => p.1) hq
        exact (List.nodup_cons.1 hwf).1 this
      rw [hnone]
      simp [dictGet]
    · rw [ih (List.nodup_cons.1 hwf).2]
      cases hg : dictGet rest k <;> simp [dictGet, hp, hg]

/-! ### Cleanup characterization -/

theorem dictGet_delAll {V : Type} (ks : List String) (m : List (String × V)) (id : String) :
    dictGet (ks.foldl (fun m k => dictDel m k) m) id =
      if id ∈ ks then none else dictGet m id := by
  induction ks generalizing m with
  | nil => simp
  | cons k ks ih =>
    rw [List.foldl_cons, ih]
    by_cases h : id ∈ ks
    · simp [h]
    · by_cases h2 : id = k <;> simp [h, h2, dictGet_dictDel]

theorem cleanup_fst (seen : SeenMap) (now : Int) :
    (cleanup_old_courses seen now).1 =
      ((cleanup_old_courses seen now).2).foldl (fun m k => dictDel m k) seen := rfl

theorem cleanup_toRemove_mem (seen : SeenMap) (now : Int) (id : String) :
    id ∈ (cleanup_old_courses seen now).2 ↔
      ∃ e, (id, e) ∈ seen ∧ staleEntry e (now - retentionSeconds) = true := by
  show id ∈ (seen.filter (fun p => staleEntry p.2 (now - retentionSeconds))).map
      (fun p => p.1) ↔ _
  simp only [List.mem_map, List.mem_filter]
  constructor
  · rintro ⟨⟨a, b⟩, ⟨hmem, hstale⟩, rfl⟩
    exact ⟨b, hmem, hstale⟩
  · rintro ⟨e, hmem, hstale⟩
    exact ⟨(id, e), ⟨hmem, hstale⟩, rfl⟩

theorem cleanup_get (seen : SeenMap) (now : Int) (hwf : dictWF seen) {id : String}
    {e : SeenEntry} (h : dictGet seen id = some e) :
    dictGet (cleanup_old_courses seen now).1 id =
      if staleEntry e (now - retentionSeconds) then none else some e := by
  rw [cleanup_fst, dictGet_delAll]
  by_cases hs : staleEntry e (now - retentionSeconds) = true
  · have hin : id ∈ (cleanup_old_courses seen now).2 :=
      (cleanup_toRemove_mem seen now id).2 ⟨e, mem_of_dictGet h, hs⟩
    simp [hin, hs]
  · have hout : id ∉ (cleanup_old_courses seen now).2 := by
      intro hmem
      obtain ⟨e', he', hs'⟩ := (cleanup_toRemove_mem seen now id).1 hmem
      have he2 : dictGet seen id = some e' := dictGet_of_mem hwf he'
      rw [h] at he2
      exact hs ((Option.some.inj he2) ▸ hs')
    simp [hout, hs, h]

theorem cleanup_sub (seen : SeenMap) (now : Int) {id : String} {e : SeenEntry}
    (h : dictGet (cleanup_old_courses seen now).1 id = some e) :
    dictGet seen id = some e := by
  rw [cleanup_fst, dictGet_delAll] at h
  by_cases hin : id ∈ (cleanup_old_courses seen now).2
  · simp [hin] at h
  · simpa [hin] using h

theorem cleanup_none (seen : SeenMap) (now : Int) {id : String}
    (h : dictGet seen id = none) :
    dictGet (cleanup_old_courses seen now).1 id = none := by
  rw [cleanup_fst, dictGet_delAll]
  by_cases hin : id ∈ (cleanup_old_courses seen now).2 <;> simp [hin, h]

/-! ### Well-formedness preservation -/

theorem dictWF_commitNew {m : SeenMap} (newCourses : List Item) (cur : SeenMap)
    (h : dictWF m) : dictWF (commitNew m newCourses cur) := by
  induction newCourses generalizing m with
  | nil => exact h
  | cons c cs ih =>
    have hstep : commitNew m (c :: cs) cur =
        commitNew (match dictGet cur c.id with
          | some e => dictSet m c.id e
          | none => m) cs cur := rfl
    rw [hstep]
    cases hg : dictGet cur c.id with
    | some e => exact ih (dictWF_dictSet _ _ h)
    | none => exact ih h

theorem dictWF_commitPending {m : SeenMap} (cur : SeenMap) (h : dictWF m) :
    dictWF (commitPending m cur) := by
  induction cur generalizing m with
  | nil => exact h
  | cons p cs ih =>
    have hstep : commitPending m (p :: cs) =
        commitPending (if (dictGet m p.1).isSome then dictSet m p.1 p.2 else m) cs := rfl
    rw [hstep]
    split
    · exact ih (dictWF_dictSet _ _ h)
    · exact ih h

theorem dictWF_delAll {V : Type} (ks : List String) {m : List (String × V)} (h : dictWF m) :
    dictWF (ks.foldl (fun m k => dictDel m k) m) := by
  induction ks generalizing m with
  | nil => exact h
  | cons k ks ih => exact ih (dictWF_dictDel k h)

theorem dictWF_cleanup {seen : SeenMap} (now : Int) (h : dictWF seen) :
    dictWF (cleanup_old_courses seen now).1 := by
  rw [cleanup_fst]
  exact dictWF_delAll _ h

/-! ### Facts about the per-course record -/

theorem mkEntryCommitted_last_seen (seen : SeenMap) (now : Int) (c : Item) :
    (mkEntryCommitted seen now c).last_seen = some (TimeVal.iso now) := by
  unfold mkEntryCommitted mkEntry
  split <;> rfl

theorem mkEntryCommitted_seen_count (seen : SeenMap) (now : Int) (c : Item) :
    (mkEntryCommitted seen now c).seen_count =
      some ((match dictGet seen c.id with
        | some e => e.seen_count.getD 0
        | none => 0) + 1) := by
  unfold mkEntryCommitted mkEntry
  split <;> rfl

theorem mkEntryCommitted_first_seen_old (seen : SeenMap) (now : Int) (c : Item)
    {e : SeenEntry} (h : dictGet seen c.id = some e) :
    (mkEntryCommitted seen now c).first_seen = some (e.first_seen.getD (TimeVal.iso now)) := by
  unfold mkEntryCommitted mkEntry
  rw [h]
  simp

theorem staleEntry_fresh (now : Int) (e : SeenEntry)
    (h : e.last_seen = some (TimeVal.iso now)) :
    staleEntry e (now - retentionSeconds) = false := by
  unfold staleEntry
  rw [h]
  show decide (now < now - retentionSeconds) = false
  rw [decide_eq_false_iff_not]
  unfold retentionSeconds
  omega

/-! ### Cycle path lemmas -/

theorem check_ret (s : AgentState) (env : CycleEnv) (cs : List Item)
    (hre : s.scraperUp = true ∨ env.initRaises = false) (hf : env.fetch = .ret cs) :
    check_for_new_courses s env =
      cycleAfterFetch { s with last_check := some env.now, scraperUp := true } env cs := by
  unfold check_for_new_courses
  rw [hf]
  have hcond : ¬({ s with last_check := some env.now } : AgentState).scraperUp = false ∨
      ¬env.initRaises = true := by
    rcases hre with h | h <;> simp [h]
  rw [if_neg (not_and_or.2 hcond)]

theorem check_retNone (s : AgentState) (env : CycleEnv)
    (hre : s.scraperUp = true ∨ env.initRaises = false) (hf : env.fetch = .retNone) :
    check_for_new_courses s env =
      cycleAfterFetch { s with last_check := some env.now, scraperUp := true } env [] := by
  unfold check_for_new_courses
  rw [hf]
  have hcond : ¬({ s with last_check := some env.now } : AgentState).scraperUp = false ∨
      ¬env.initRaises = true := by
    rcases hre with h | h <;> simp [h]
  rw [if_neg (not_and_or.2 hcond)]

theorem check_init_raises (s : AgentState) (env : CycleEnv)
    (h1 : s.scraperUp = false) (h2 : env.initRaises = true) :
    check_for_new_courses s env =
      cycleExcept { s with last_check := some env.now } env.restart none [] [] := by
  unfold check_for_new_courses
  rw [if_pos ⟨h1, h2⟩]

theorem check_fetch_raises (s : AgentState) (env : CycleEnv)
    (hre : s.scraperUp = true ∨ env.initRaises = false) (hf : env.fetch = .raises) :
    check_for_new_courses s env =
      cycleExcept { s with last_check := some env.now, scraperUp := true }
        env.restart none [] [] := by
  unfold check_for_new_courses
  rw [hf]
  have hcond : ¬({ s with last_check := some env.now } : AgentState).scraperUp = false ∨
      ¬env.initRaises = true := by
    rcases hre with h | h <;> simp [h]
  rw [if_neg (not_and_or.2 hcond)]

theorem afterFetch_empty (s : AgentState) (env : CycleEnv) (courses : List Item)
    (h : (diffCourses s.seen_courses env.now courses).1 = []) :
    cycleAfterFetch s env courses =
      cycleFinish { s with courses_found := s.courses_found + courses.length } env
        (diffCourses s.seen_courses env.now courses).1
        (diffCourses s.seen_courses env.now courses).2 [] none := by
  unfold cycleAfterFetch
  rw [if_pos h]

theorem afterFetch_notify_true (s : AgentState) (env : CycleEnv) (courses : List Item)
    (hne : ¬(diffCourses s.seen_courses env.now courses).1 = [])
    (hn : env.notify = .ret true) :
    cycleAfterFetch s env courses =
      cycleFinish { s with courses_found := s.courses_found + courses.length,
                           emails_sent := s.emails_sent + 1,
                           seen_courses := commitNew s.seen_courses
                             (diffCourses s.seen_courses env.now courses).1
                             (diffCourses s.seen_courses env.now courses).2,
                           consecutive_failures := 0 } env
        (diffCourses s.seen_courses env.now courses).1
        (diffCourses s.seen_courses env.now courses).2
        [SaveEvent.afterNotifySuccess (commitNew s.seen_courses
            (diffCourses s.seen_courses env.now courses).1
            (diffCourses s.seen_courses env.now courses).2)]
        (some (diffCourses s.seen_courses env.now courses).1) := by
  unfold cycleAfterFetch
  rw [if_neg hne, hn]

theorem afterFetch_notify_false (s : AgentState) (env : CycleEnv) (courses : List Item)
    (hne : ¬(diffCourses s.seen_courses env.now courses).1 = [])
    (hn : env.notify = .ret false) :
    cycleAfterFetch s env courses =
      cycleFinish { s with courses_found := s.courses_found + courses.length,
                           consecutive_failures := s.consecutive_failures + 1,
                           errors := s.errors + 1 } env
        (diffCourses s.seen_courses env.now courses).1
        (diffCourses s.seen_courses env.now courses).2 []
        (some (diffCourses s.seen_courses env.now courses).1) := by
  unfold cycleAfterFetch
  rw [if_neg hne, hn]

theorem afterFetch_notify_raises (s : AgentState) (env : CycleEnv) (courses : List Item)
    (hne : ¬(diffCourses s.seen_courses env.now courses).1 = [])
    (hn : env.notify = .raises) :
    cycleAfterFetch s env courses =
      cycleExcept { s with courses_found := s.courses_found + courses.length } env.restart
        (some (diffCourses s.seen_courses env.now courses).1)
        (diffCourses s.seen_courses env.now courses).1
        (diffCourses s.seen_courses env.now courses).2 := by
  unfold cycleAfterFetch
  rw [if_neg hne, hn]

theorem cycleFinish_ok (s : AgentState) (env : CycleEnv) (nb : List Item) (cur : SeenMap)
    (sv : List SaveEvent) (no : Option (List Item)) :
    (cycleFinish s env nb cur sv no).ok = true := rfl

theorem cycleFinish_raised (s : AgentState) (env : CycleEnv) (nb : List Item) (cur : SeenMap)
    (sv : List SaveEvent) (no : Option (List Item)) :
    (cycleFinish s env nb cur sv no).raised = false := rfl

theorem cycleFinish_newBatch (s : AgentState) (env : CycleEnv) (nb : List Item) (cur : SeenMap)
    (sv : List SaveEvent) (no : Option (List Item)) :
    (cycleFinish s env nb cur sv no).newBatch = nb := rfl

theorem cycleFinish_pending (s : AgentState) (env : CycleEnv) (nb : List Item) (cur : SeenMap)
    (sv : List SaveEvent) (no : Option (List Item)) :
    (cycleFinish s env nb cur sv no).pending = cur := rfl

theorem cycleFinish_notifiedBatch (s : AgentState) (env : CycleEnv) (nb : List Item)
    (cur : SeenMap) (sv : List SaveEvent) (no : Option (List Item)) :
    (cycleFinish s env nb cur sv no).notifiedBatch = no := rfl

theorem cycleFinish_seen (s : AgentState) (env : CycleEnv) (nb : List Item) (cur : SeenMap)
    (sv : List SaveEvent) (no : Option (List Item)) :
    (cycleFinish s env nb cur sv no).state.seen_courses =
      (cleanup_old_courses (commitPending s.seen_courses cur) env.now).1 := rfl

theorem cycleFinish_pruned (s : AgentState) (env : CycleEnv) (nb : List Item) (cur : SeenMap)
    (sv : List SaveEvent) (no : Option (List Item)) :
    (cycleFinish s env nb cur sv no).pruned =
      (cleanup_old_courses (commitPending s.seen_courses cur) env.now).2 := rfl

theorem cycleFinish_saves (s : AgentState) (env : CycleEnv) (nb : List Item) (cur : SeenMap)
    (sv : List SaveEvent) (no : Option (List Item)) :
    (cycleFinish s env nb cur sv no).saves =
      (sv ++ [SaveEvent.endOfCycle (commitPending s.seen_courses cur)]) ++
        (if (cleanup_old_courses (commitPending s.seen_courses cur) env.now).2 = [] then []
         else [SaveEvent.afterPrune
            (cleanup_old_courses (commitPending s.seen_courses cur) env.now).1]) := rfl

theorem cycleFinish_status (s : AgentState) (env : CycleEnv) (nb : List Item) (cur : SeenMap)
    (sv : List SaveEvent) (no : Option (List Item)) :
    (cycleFinish s env nb cur sv no).state.status = HealthState.healthy := rfl

theorem cycleFinish_lsc (s : AgentState) (env : CycleEnv) (nb : List Item) (cur : SeenMap)
    (sv : List SaveEvent) (no : Option (List Item)) :
    (cycleFinish s env nb cur sv no).state.last_successful_check = some env.now := rfl

theorem cycleFinish_scraperUp (s : AgentState) (env : CycleEnv) (nb : List Item) (cur : SeenMap)
    (sv : List SaveEvent) (no : Option (List Item)) :
    (cycleFinish s env nb cur sv no).state.scraperUp = s.scraperUp := rfl

theorem cycleFinish_cf (s : AgentState) (env : CycleEnv) (nb : List Item) (cur : SeenMap)
    (sv : List SaveEvent) (no : Option (List Item)) :
    (cycleFinish s env nb cur sv no).state.consecutive_failures = s.consecutive_failures := rfl

theorem cycleFinish_errors (s : AgentState) (env : CycleEnv) (nb : List Item) (cur : SeenMap)
    (sv : List SaveEvent) (no : Option (List Item)) :
    (cycleFinish s env nb cur sv no).state.errors = s.errors := rfl

theorem cycleFinish_restartFired (s : AgentState) (env : CycleEnv) (nb : List Item)
    (cur : SeenMap) (sv : List SaveEvent) (no : Option (List Item)) :
    (cycleFinish s env nb cur sv no).restartFired = false := rfl

theorem cycleExcept_parts (s : AgentState) (out : RestartOutcome) (no : Option (List Item))
    (nb : List Item) (pend : SeenMap) :
    (cycleExcept s out no nb pend).ok = false ∧
    (cycleExcept s out no nb pend).raised = true ∧
    (cycleExcept s out no nb pend).saves = [] ∧
    (cycleExcept s out no nb pend).state.status = HealthState.error ∧
    (cycleExcept s out no nb pend).state.errors = s.errors + 1 ∧
    (cycleExcept s out no nb pend).state.seen_courses = s.seen_courses ∧
    (cycleExcept s out no nb pend).state.restart_on_failure = s.restart_on_failure ∧
    (cycleExcept s out no nb pend).state.max_consecutive_failures =
      s.max_consecutive_failures ∧
    ((cycleExcept s out no nb pend).restartFired = true ↔
      (s.restart_on_failure = true ∧
        s.max_consecutive_failures ≤ s.consecutive_failures + 1)) ∧
    (cycleExcept s out no nb pend).state.consecutive_failures =
      (if s.restart_on_failure = true ∧
          s.max_consecutive_failures ≤ s.consecutive_failures + 1
       then (if out = .ok then 0 else s.consecutive_failures + 1)
       else s.consecutive_failures + 1) := by
  unfold cycleExcept restart_scraper
  by_cases h : s.restart_on_failure = true ∧
      s.max_consecutive_failures ≤ s.consecutive_failures + 1
  · rw [if_pos h, if_pos h]
    cases out <;> simp [h]
  · rw [if_neg h, if_neg h]
    simp [h]

theorem cycleExcept_newBatch (s : AgentState) (out : RestartOutcome)
    (no : Option (List Item)) (nb : List Item) (pend : SeenMap) :
    (cycleExcept s out no nb pend).newBatch = nb := by
  unfold cycleExcept
  by_cases h : s.restart_on_failure = true ∧
      s.max_consecutive_failures ≤ s.consecutive_failures + 1
  · rw [if_pos h]
  · rw [if_neg h]

theorem cycleExcept_pending (s : AgentState) (out : RestartOutcome)
    (no : Option (List Item)) (nb : List Item) (pend : SeenMap) :
    (cycleExcept s out no nb pend).pending = pend := by
  unfold cycleExcept
  by_cases h : s.restart_on_failure = true ∧
      s.max_consecutive_failures ≤ s.consecutive_failures + 1
  · rw [if_pos h]
  · rw [if_neg h]

theorem cycleExcept_notifiedBatch (s : AgentState) (out : RestartOutcome)
    (no : Option (List Item)) (nb : List Item) (pend : SeenMap) :
    (cycleExcept s out no nb pend).notifiedBatch = no := by
  unfold cycleExcept
  by_cases h : s.restart_on_failure = true ∧
      s.max_consecutive_failures ≤ s.consecutive_failures + 1
  · rw [if_pos h]
  · rw [if_neg h]

theorem afterFetch_newBatch (s : AgentState) (env : CycleEnv) (courses : List Item) :
    (cycleAfterFetch s env courses).newBatch =
      (diffCourses s.seen_courses env.now courses).1 := by
  by_cases hnb : (diffCourses s.seen_courses env.now courses).1 = []
  · rw [afterFetch_empty s env courses hnb, cycleFinish_newBatch]
  · cases hn : env.notify with
    | raises => rw [afterFetch_notify_raises s env courses hnb hn, cycleExcept_newBatch]
    | ret b =>
      cases b
      · rw [afterFetch_notify_false s env courses hnb hn, cycleFinish_newBatch]
      · rw [afterFetch_notify_true s env courses hnb hn, cycleFinish_newBatch]

theorem check_newBatch (s : AgentState) (env : CycleEnv) (cs : List Item)
    (hre : s.scraperUp = true ∨ env.initRaises = false) (hf : env.fetch = .ret cs) :
    (check_for_new_courses s env).newBatch =
      cs.filter (fun c => (dictGet s.seen_courses c.id).isNone) := by
  rw [check_ret s env cs hre hf, afterFetch_newBatch, diffCourses_newBatch]

theorem check_fail (s : AgentState) (env : CycleEnv)
    (h : (check_for_new_courses s env).ok = false) :
    (check_for_new_courses s env).raised = true ∧
    (check_for_new_courses s env).state.status = HealthState.error ∧
    (check_for_new_courses s env).state.errors = s.errors + 1 ∧
    (check_for_new_courses s env).state.restart_on_failure = s.restart_on_failure ∧
    (check_for_new_courses s env).state.max_consecutive_failures =
      s.max_consecutive_failures ∧
    (check_for_new_courses s env).state.seen_courses = s.seen_courses ∧
    ((check_for_new_courses s env).restartFired = true ↔
      (s.restart_on_failure = true ∧
        s.max_consecutive_failures ≤ s.consecutive_failures + 1)) ∧
    (check_for_new_courses s env).state.consecutive_failures =
      (if s.restart_on_failure = true ∧
          s.max_consecutive_failures ≤ s.consecutive_failures + 1
       then (if env.restart = .ok then 0 else s.consecutive_failures + 1)
       else s.consecutive_failures + 1) := by
  by_cases h1 : s.scraperUp = false ∧ env.initRaises = true
  · rw [check_init_raises s env h1.1 h1.2]
    obtain ⟨-, hraised, -, hstatus, herr, hseen, hrof, hmax, hiff, hcf⟩ :=
      cycleExcept_parts { s with last_check := some env.now } env.restart none [] []
    exact ⟨hraised, hstatus, herr, hrof, hmax, hseen, hiff, hcf⟩
  · have hre : s.scraperUp = true ∨ env.initRaises = false := by
      rcases not_and_or.1 h1 with h2 | h2
      · exact Or.inl (by simpa using h2)
      · exact Or.inr (by simpa using h2)
    cases hf : env.fetch with
    | raises =>
      rw [check_fetch_raises s env hre hf]
      obtain ⟨-, hraised, -, hstatus, herr, hseen, hrof, hmax, hiff, hcf⟩ :=
        cycleExcept_parts { s with last_check := some env.now, scraperUp := true }
          env.restart none [] []
      exact ⟨hraised, hstatus, herr, hrof, hmax, hseen, hiff, hcf⟩
    | retNone =>
      rw [check_retNone s env hre hf] at h
      rw [afterFetch_empty { s with last_check := some env.now, scraperUp := true }
        env [] (by rfl)] at h
      rw [cycleFinish_ok] at h
      exact absurd h (by simp)
    | ret cs =>
      rw [check_ret s env cs hre hf] at h ⊢
      by_cases hnb : (diffCourses s.seen_courses env.now cs).1 = []
      · rw [afterFetch_empty { s with last_check := some env.now, scraperUp := true }
          env cs hnb] at h
        rw [cycleFinish_ok] at h
        exact absurd h (by simp)
      · cases hn : env.notify with
        | raises =>
          rw [afterFetch_notify_raises
            { s with last_check := some env.now, scraperUp := true } env cs hnb hn]
          obtain ⟨-, hraised, -, hstatus, herr, hseen, hrof, hmax, hiff, hcf⟩ :=
            cycleExcept_parts
              { s with last_check := some env.now, scraperUp := true,
                       courses_found := s.courses_found + cs.length } env.restart
              (some (diffCourses s.seen_courses env.now cs).1)
              (diffCourses s.seen_courses env.now cs).1
              (diffCourses s.seen_courses env.now cs).2
          exact ⟨hraised, hstatus, herr, hrof, hmax, hseen, hiff, hcf⟩
        | ret b =>
          cases b
          · rw [afterFetch_notify_false
              { s with last_check := some env.now, scraperUp := true } env cs hnb hn] at h
            rw [cycleFinish_ok] at h
            exact absurd h (by simp)
          · rw [afterFetch_notify_true
              { s with last_check := some env.now, scraperUp := true } env cs hnb hn] at h
            rw [cycleFinish_ok] at h
            exact absurd h (by simp)

theorem pickLast_isSome {α : Type} {p : α → Prop} [DecidablePred p] {l : List α} {x : α}
    (hx : x ∈ l) (hp : p x) : ∃ y, pickLast p l = some y := by
  cases h : pickLast p l with
  | some y => exact ⟨y, rfl⟩
  | none => exact absurd hp (pickLast_eq_none.1 h x hx)

theorem afterFetch_pending (s : AgentState) (env : CycleEnv) (courses : List Item) :
    (cycleAfterFetch s env courses).pending =
      (diffCourses s.seen_courses env.now courses).2 := by
  by_cases hnb : (diffCourses s.seen_courses env.now courses).1 = []
  · rw [afterFetch_empty s env courses hnb, cycleFinish_pending]
  · cases hn : env.notify with
    | raises => rw [afterFetch_notify_raises s env courses hnb hn, cycleExcept_pending]
    | ret b =>
      cases b
      · rw [afterFetch_notify_false s env courses hnb hn, cycleFinish_pending]
      · rw [afterFetch_notify_true s env courses hnb hn, cycleFinish_pending]

theorem check_pending (s : AgentState) (env : CycleEnv) (cs : List Item)
    (hre : s.scraperUp = true ∨ env.initRaises = false) (hf : env.fetch = .ret cs) :
    (check_for_new_courses s env).pending = (diffCourses s.seen_courses env.now cs).2 := by
  rw [check_ret s env cs hre hf, afterFetch_pending]

theorem commitPending_none (m cur : SeenMap) {id : String} (h : dictGet m id = none) :
    dictGet (commitPending m cur) id = none := by
  rw [commitPending_get, h]

theorem commitPendingCleanup_entry (m cur : SeenMap) (now : Int) (hwf : dictWF m)
    (hcurwf : dictWF cur) {id : String} {e : SeenEntry}
    (hcur : dictGet cur id = some e) (hm : (dictGet m id).isSome)
    (hfresh : e.last_seen = some (TimeVal.iso now)) :
    dictGet (cleanup_old_courses (commitPending m cur) now).1 id = some e := by
  have h1 : dictGet (commitPending m cur) id = some e := by
    rw [commitPending_get]
    obtain ⟨v, hv⟩ := Option.isSome_iff_exists.1 hm
    rw [hv, pickLast_pair_eq_dictGet hcurwf, hcur]
  have h2 := cleanup_get (commitPending m cur) now (dictWF_commitPending cur hwf) h1
  rw [staleEntry_fresh now e hfresh] at h2
  simpa using h2

theorem check_wf (s : AgentState) (env : CycleEnv) (hwf : dictWF s.seen_courses) :
    dictWF (check_for_new_courses s env).state.seen_courses := by
  by_cases h1 : s.scraperUp = false ∧ env.initRaises = true
  · rw [check_init_raises s env h1.1 h1.2,
      (cycleExcept_parts { s with last_check := some env.now }
        env.restart none [] []).2.2.2.2.2.1]
    exact hwf
  · have hre : s.scraperUp = true ∨ env.initRaises = false := by
      rcases not_and_or.1 h1 with h2 | h2
      · exact Or.inl (by simpa using h2)
      · exact Or.inr (by simpa using h2)
    cases hf : env.fetch with
    | raises =>
      rw [check_fetch_raises s env hre hf,
        (cycleExcept_parts { s with last_check := some env.now, scraperUp := true }
          env.restart none [] []).2.2.2.2.2.1]
      exact hwf
    | retNone =>
      rw [check_retNone s env hre hf,
        afterFetch_empty { s with last_check := some env.now, scraperUp := true } env []
          (by rfl), cycleFinish_seen]
      exact dictWF_cleanup _ (dictWF_commitPending _ hwf)
    | ret cs =>
      rw [check_ret s env cs hre hf]
      by_cases hnb : (diffCourses s.seen_courses env.now cs).1 = []
      · rw [afterFetch_empty { s with last_check := some env.now, scraperUp := true }
          env cs hnb, cycleFinish_seen]
        exact dictWF_cleanup _ (dictWF_commitPending _ hwf)
      · cases hn : env.notify with
        | raises =>
          rw [afterFetch_notify_raises
            { s with last_check := some env.now, scraperUp := true } env cs hnb hn,
            (cycleExcept_parts
              { s with last_check := some env.now, scraperUp := true,
                       courses_found := s.courses_found + cs.length } env.restart
              (some (diffCourses s.seen_courses env.now cs).1)
              (diffCourses s.seen_courses env.now cs).1
              (diffCourses s.seen_courses env.now cs).2).2.2.2.2.2.1]
          exact hwf
        | ret b =>
          cases b
          · rw [afterFetch_notify_false
              { s with last_check := some env.now, scraperUp := true } env cs hnb hn,
              cycleFinish_seen]
            exact dictWF_cleanup _ (dictWF_commitPending _ hwf)
          · rw [afterFetch_notify_true
              { s with last_check := some env.now, scraperUp := true } env cs hnb hn,
              cycleFinish_seen]
            exact dictWF_cleanup _ (dictWF_commitPending _ (dictWF_commitNew _ _ hwf))

theorem mkEntryCommitted_first_seen_isSome (seen : SeenMap) (now : Int) (c : Item) :
    ∃ tv, (mkEntryCommitted seen now c).first_seen = some tv := by
  unfold mkEntryCommitted mkEntry
  split
  · exact ⟨_, rfl⟩
  · exact ⟨_, rfl⟩

theorem check_completed_entry (s : AgentState) (env : CycleEnv) (cs : List Item)
    (hwf : dictWF s.seen_courses)
    (hre : s.scraperUp = true ∨ env.initRaises = false)
    (hf : env.fetch = .ret cs)
    (hok : (check_for_new_courses s env).ok = true)
    {id : String} (hid : ∃ c ∈ cs, c.id = id)
    (hcase : (diffCourses s.seen_courses env.now cs).1 = [] ∨ env.notify = .ret true ∨
      (dictGet s.seen_courses id).isSome) :
    ∃ c, c ∈ cs ∧ c.id = id ∧
      dictGet (check_for_new_courses s env).state.seen_courses id =
        some (mkEntryCommitted s.seen_courses env.now c) := by
  obtain ⟨c0, hc0, hc0id⟩ := hid
  obtain ⟨c, hpick⟩ := pickLast_isSome (p := fun c : Item => c.id = id) hc0 hc0id
  obtain ⟨hcmem, hcid⟩ := pickLast_mem hpick
  have hcur : dictGet (diffCourses s.seen_courses env.now cs).2 id =
      some (mkEntryCommitted s.seen_courses env.now c) := by
    rw [diffCourses_get, hpick]
  have hfresh : (mkEntryCommitted s.seen_courses env.now c).last_seen =
      some (TimeVal.iso env.now) := mkEntryCommitted_last_seen _ _ _
  have hcurwf := diffCourses_wf s.seen_courses env.now cs
  refine ⟨c, hcmem, hcid, ?_⟩
  rw [check_ret s env cs hre hf] at hok ⊢
  by_cases hnb : (diffCourses s.seen_courses env.now cs).1 = []
  · rw [afterFetch_empty { s with last_check := some env.now, scraperUp := true }
      env cs hnb, cycleFinish_seen]
    have hfil : cs.filter (fun c => (dictGet s.seen_courses c.id).isNone) = [] := by
      rw [← diffCourses_newBatch s.seen_courses env.now cs]
      exact hnb
    have hnn := List.filter_eq_nil_iff.1 hfil c hcmem
    rw [hcid] at hnn
    have hsome : (dictGet s.seen_courses id).isSome := by
      cases hg : dictGet s.seen_courses id
      · rw [hg] at hnn
        simp at hnn
      · rfl
    exact commitPendingCleanup_entry s.seen_courses _ env.now hwf hcurwf hcur hsome hfresh
  · cases hn : env.notify with
    | raises =>
      rw [afterFetch_notify_raises
        { s with last_check := some env.now, scraperUp := true } env cs hnb hn] at hok
      rw [(cycleExcept_parts
        { s with last_check := some env.now, scraperUp := true,
                 courses_found := s.courses_found + cs.length } env.restart
        (some (diffCourses s.seen_courses env.now cs).1)
        (diffCourses s.seen_courses env.now cs).1
        (diffCourses s.seen_courses env.now cs).2).1] at hok
      exact absurd hok (by simp)
    | ret b =>
      cases b
      · rw [afterFetch_notify_false
          { s with last_check := some env.now, scraperUp := true } env cs hnb hn,
          cycleFinish_seen]
        have hsome : (dictGet s.seen_courses id).isSome := by
          rcases hcase with hc1 | hc2 | hc3
          · exact absurd hc1 hnb
          · rw [hn] at hc2
            exact absurd hc2 (by simp)
          · exact hc3
        exact commitPendingCleanup_entry s.seen_courses _ env.now hwf hcurwf hcur hsome hfresh
      · rw [afterFetch_notify_true
          { s with last_check := some env.now, scraperUp := true } env cs hnb hn,
          cycleFinish_seen]
        have hm : (dictGet (commitNew s.seen_courses
            (diffCourses s.seen_courses env.now cs).1
            (diffCourses s.seen_courses env.now cs).2) id).isSome := by
          rw [commitNew_get]
          by_cases hcond : (∃ x ∈ (diffCourses s.seen_courses env.now cs).1, x.id = id) ∧
              (dictGet (diffCourses s.seen_courses env.now cs).2 id).isSome
          · rw [if_pos hcond]
            exact hcond.2
          · rw [if_neg hcond]
            cases hprev : dictGet s.seen_courses id with
            | some v => rfl
            | none =>
              exfalso
              apply hcond
              constructor
              · refine ⟨c, ?_, hcid⟩
                rw [diffCourses_newBatch, List.mem_filter]
                refine ⟨hcmem, ?_⟩
                rw [hcid, hprev]
                rfl
              · rw [hcur]
                rfl
        exact commitPendingCleanup_entry _ _ env.now (dictWF_commitNew _ _ hwf)
          hcurwf hcur hm hfresh

theorem commitPending_some_src {m cur : SeenMap} (hcurwf : dictWF cur) {id : String}
    {e : SeenEntry} (h : dictGet (commitPending m cur) id = some e) :
    dictGet cur id = some e ∨ dictGet m id = some e := by
  rw [commitPending_get] at h
  cases hm : dictGet m id with
  | none =>
    rw [hm] at h
    exact absurd h (by simp)
  | some v =>
    rw [hm, pickLast_pair_eq_dictGet hcurwf] at h
    cases hc : dictGet cur id with
    | some w =>
      rw [hc] at h
      simp at h
      left
      exact congrArg some h
    | none =>
      rw [hc] at h
      simp at h
      right
      exact congrArg some h

theorem commitNew_some_src {m cur : SeenMap} {nc : List Item} {id : String} {e : SeenEntry}
    (h : dictGet (commitNew m nc cur) id = some e) :
    dictGet cur id = some e ∨ dictGet m id = some e := by
  rw [commitNew_get] at h
  by_cases hc : (∃ c ∈ nc, c.id = id) ∧ (dictGet cur id).isSome
  · rw [if_pos hc] at h
    left
    exact h
  · rw [if_neg hc] at h
    right
    exact h

theorem check_ok_shape (s : AgentState) (env : CycleEnv)
    (h : (check_for_new_courses s env).ok = true) :
    (check_for_new_courses s env).raised = false ∧
    (check_for_new_courses s env).state.scraperUp = true ∧
    (check_for_new_courses s env).state.status = HealthState.healthy ∧
    (check_for_new_courses s env).state.last_successful_check = some env.now := by
  by_cases h1 : s.scraperUp = false ∧ env.initRaises = true
  · rw [check_init_raises s env h1.1 h1.2] at h
    rw [(cycleExcept_parts { s with last_check := some env.now } env.restart none [] []).1] at h
    exact absurd h (by simp)
  · have hre : s.scraperUp = true ∨ env.initRaises = false := by
      rcases not_and_or.1 h1 with h2 | h2
      · exact Or.inl (by simpa using h2)
      · exact Or.inr (by simpa using h2)
    cases hf : env.fetch with
    | raises =>
      rw [check_fetch_raises s env hre hf] at h
      rw [(cycleExcept_parts { s with last_check := some env.now, scraperUp := true }
        env.restart none [] []).1] at h
      exact absurd h (by simp)
    | retNone =>
      rw [check_retNone s env hre hf,
        afterFetch_empty { s with last_check := some env.now, scraperUp := true } env []
          (by rfl)]
      exact ⟨cycleFinish_raised _ _ _ _ _ _, cycleFinish_scraperUp _ _ _ _ _ _,
        cycleFinish_status _ _ _ _ _ _, cycleFinish_lsc _ _ _ _ _ _⟩
    | ret cs =>
      rw [check_ret s env cs hre hf] at h ⊢
      by_cases hnb : (diffCourses s.seen_courses env.now cs).1 = []
      · rw [afterFetch_empty { s with last_check := some env.now, scraperUp := true }
          env cs hnb]
        exact ⟨cycleFinish_raised _ _ _ _ _ _, cycleFinish_scraperUp _ _ _ _ _ _,
          cycleFinish_status _ _ _ _ _ _, cycleFinish_lsc _ _ _ _ _ _⟩
      · cases hn : env.notify with
        | raises =>
          rw [afterFetch_notify_raises
            { s with last_check := some env.now, scraperUp := true } env cs hnb hn] at h
          rw [(cycleExcept_parts
            { s with last_check := some env.now, scraperUp := true,
                     courses_found := s.courses_found + cs.length } env.restart
            (some (diffCourses s.seen_courses env.now cs).1)
            (diffCourses s.seen_courses env.now cs).1
            (diffCourses s.seen_courses env.now cs).2).1] at h
          exact absurd h (by simp)
        | ret b =>
          cases b
          · rw [afterFetch_notify_false
              { s with last_check := some env.now, scraperUp := true } env cs hnb hn]
            exact ⟨cycleFinish_raised _ _ _ _ _ _, cycleFinish_scraperUp _ _ _ _ _ _,
              cycleFinish_status _ _ _ _ _ _, cycleFinish_lsc _ _ _ _ _ _⟩
          · rw [afterFetch_notify_true
              { s with last_check := some env.now, scraperUp := true } env cs hnb hn]
            exact ⟨cycleFinish_raised _ _ _ _ _ _, cycleFinish_scraperUp _ _ _ _ _ _,
              cycleFinish_status _ _ _ _ _ _, cycleFinish_lsc _ _ _ _ _ _⟩

/-! ### Claim theorems -/

/-- C7: Exception containment.  For every agent state and cycle
environment, the cycle body is a total function (no exception leaves the
Poll Cycle Engine); whenever an unhandled exception occurs inside the
cycle (`raised = true`), it is caught by the `except` branch, which sets
the health status to `error`, increments the `errors` counter by exactly
one, and makes the cycle return failure instead of raising. -/
theorem C7_exception_containment (s : AgentState) (env : CycleEnv)
    (h : (check_for_new_courses s env).raised = true) :
    (check_for_new_courses s env).ok = false ∧
    (check_for_new_courses s env).state.status = HealthState.error ∧
    (check_for_new_courses s env).state.errors = s.errors + 1 := by
  cases hok : (check_for_new_courses s env).ok with
  | true =>
    have := (check_ok_shape s env hok).1
    rw [this] at h
    exact absurd h (by simp)
  | false =>
    obtain ⟨-, hstatus, herr, -, -, -, -, -⟩ := check_fail s env hok
    exact ⟨rfl, hstatus, herr⟩

/-- C7 witness: a cycle whose fetch raises, run from the initial state,
returns failure with status `error` and one more recorded error. -/
theorem C7_witness :
    (check_for_new_courses stateEmpty failEnv).raised = true ∧
    (check_for_new_courses stateEmpty failEnv).ok = false ∧
    (check_for_new_courses stateEmpty failEnv).state.status = HealthState.error ∧
    (check_for_new_courses stateEmpty failEnv).state.errors = stateEmpty.errors + 1 := by
  have h := C7_exception_containment stateEmpty failEnv (by decide)
  exact ⟨by decide, h.1, h.2.1, h.2.2⟩

/-- C8: Graceful fetch degradation.  If the Listing Source returns `None`,
or returns an empty list, the cycle treats it as an empty item list and
continues: it completes successfully with status `healthy`, produces no
new items, never invokes the Notifier, and the error counter is left
unchanged (the cycle is not classified as an error for this reason
alone). -/
theorem C8_graceful_fetch_degradation (s : AgentState) (env : CycleEnv)
    (hre : s.scraperUp = true ∨ env.initRaises = false)
    (hf : env.fetch = .retNone ∨ env.fetch = .ret []) :
    (check_for_new_courses s env).ok = true ∧
    (check_for_new_courses s env).raised = false ∧
    (check_for_new_courses s env).state.status = HealthState.healthy ∧
    (check_for_new_courses s env).newBatch = [] ∧
    (check_for_new_courses s env).notifiedBatch = none ∧
    (check_for_new_courses s env).state.errors = s.errors := by
  rcases hf with hf | hf
  · rw [check_retNone s env hre hf,
      afterFetch_empty { s with last_check := some env.now, scraperUp := true } env []
        (by rfl)]
    refine ⟨cycleFinish_ok _ _ _ _ _ _, cycleFinish_raised _ _ _ _ _ _,
      cycleFinish_status _ _ _ _ _ _, ?_, cycleFinish_notifiedBatch _ _ _ _ _ _,
      cycleFinish_errors _ _ _ _ _ _⟩
    rw [cycleFinish_newBatch]
    rfl
  · rw [check_ret s env [] hre hf,
      afterFetch_empty { s with last_check := some env.now, scraperUp := true } env []
        (by rfl)]
    refine ⟨cycleFinish_ok _ _ _ _ _ _, cycleFinish_raised _ _ _ _ _ _,
      cycleFinish_status _ _ _ _ _ _, ?_, cycleFinish_notifiedBatch _ _ _ _ _ _,
      cycleFinish_errors _ _ _ _ _ _⟩
    rw [cycleFinish_newBatch]
    rfl

/-- C8 witness: a `None` fetch at the initial state yields a healthy,
zero-item, notifier-free cycle. -/
theorem C8_witness :
    (check_for_new_courses stateEmpty (envOf .retNone (.ret true))).ok = true ∧
    (check_for_new_courses stateEmpty (envOf .retNone (.ret true))).state.status =
      HealthState.healthy ∧
    (check_for_new_courses stateEmpty (envOf .retNone (.ret true))).notifiedBatch = none ∧
    (check_for_new_courses stateEmpty (envOf .retNone (.ret true))).state.errors =
      stateEmpty.errors := by
  have h := C8_graceful_fetch_degradation stateEmpty (envOf .retNone (.ret true))
    (Or.inl rfl) (Or.inl rfl)
  exact ⟨h.1, h.2.2.1, h.2.2.2.2.1, h.2.2.2.2.2⟩

/-- C5 counterexample: an entry whose `last_seen` is 31 days in the past
and parses — a trailing-`Z` form that the replace at source line 275
explicitly anticipates, yielding an offset-aware datetime — is NOT removed
by a prune pass at `now = 0`: the naive-vs-aware comparison at line 276
raises `TypeError` and the bare `except` keeps the entry.  So the code
does not remove exactly the entries whose `last_seen` parses and is older
than the retention window. -/
theorem C5_counterexample :
    parseTime (TimeVal.isoAware (-2678400)) = some (-2678400) ∧
    (-2678400 : Int) < 0 - retentionSeconds ∧
    dictGet (cleanup_old_courses [("aware", entryAwareStale)] 0).1 "aware" =
      some entryAwareStale :=
  ⟨rfl, by decide, by decide⟩

/-- C5 amended: Pruning correctness.  Under the dict invariant, a prune
pass over the seen-set removes an entry exactly when its `last_seen`
parses to a naive (offset-free) datetime whose instant is older than the
30-day retention cutoff.  Entries with a missing or unparsable `last_seen`
are retained (fail open), and so are entries whose `last_seen` parses to
an offset-aware datetime, because comparing the aware value with the
naive cutoff raises a `TypeError` that the same bare `except` swallows
(an entry 31 days old is removed and one 29 days old retained only in the
naive form).  The prune function inspects only the seen-set and the
clock, never the current fetch result, so absence of an item from the
current fetch cannot by itself remove it. -/
theorem C5_pruning_correctness (m : SeenMap) (now : Int) (id : String) (e : SeenEntry)
    (hwf : dictWF m) (h : dictGet m id = some e) :
    (dictGet (cleanup_old_courses m now).1 id =
      (if staleEntry e (now - retentionSeconds) then none else some e)) ∧
    (staleEntry e (now - retentionSeconds) = true ↔
      (∃ t, e.last_seen = some (TimeVal.iso t) ∧ t < now - retentionSeconds)) := by
  refine ⟨cleanup_get m now hwf h, ?_⟩
  unfold staleEntry
  cases hls : e.last_seen with
  | none => simp
  | some tv =>
    cases tv with
    | iso t => simp
    | isoAware t => simp
    | raw sv => simp

/-- C5 witness: at `now = 0`, the naive entry last seen 31 days ago is
removed, the entry last seen 29 days ago is retained, the entry with an
unparsable `last_seen` is retained, and the offset-aware entry last seen
31 days ago is retained. -/
theorem C5_witness :
    dictGet (cleanup_old_courses pruneMap 0).1 "old" = none ∧
    dictGet (cleanup_old_courses pruneMap 0).1 "fresh" = some entryFresh ∧
    dictGet (cleanup_old_courses pruneMap 0).1 "odd" = some entryOdd ∧
    dictGet (cleanup_old_courses pruneMap 0).1 "aware" = some entryAwareStale := by
  refine ⟨?_, ?_, ?_, ?_⟩
  · rw [(C5_pruning_correctness pruneMap 0 "old" entryStale (by decide) (by decide)).1]
    decide
  · rw [(C5_pruning_correctness pruneMap 0 "fresh" entryFresh (by decide) (by decide)).1]
    decide
  · rw [(C5_pruning_correctness pruneMap 0 "odd" entryOdd (by decide) (by decide)).1]
    decide
  · rw [(C5_pruning_correctness pruneMap 0 "aware" entryAwareStale
      (by decide) (by decide)).1]
    decide

/-- C6 counterexample: the claim says loading never raises, but when the
state file holds malformed JSON and the backup copy made inside the
`except` handler itself fails, `_load_seen_courses` propagates that
exception. -/
theorem C6_counterexample : load_seen_courses .malformed false = .raised := rfl

/-- C6 amended: loading the seen-set store raises only in the corner case
where the file is malformed and the backup copy itself fails; a missing
file yields an empty SeenSet without a backup, and a malformed file whose
backup copy succeeds yields an empty SeenSet after the file is copied
aside rather than deleted. -/
theorem C6_corrupt_state_recovery (f : StoreFile) (copyOk : Bool) :
    (load_seen_courses f copyOk = .raised ↔ (f = .malformed ∧ copyOk = false)) ∧
    (f = .missing → load_seen_courses f copyOk = .ok [] false) ∧
    (f = .malformed → copyOk = true → load_seen_courses f copyOk = .ok [] true) := by
  refine ⟨?_, ?_, ?_⟩
  · cases f with
    | missing => cases copyOk <;> simp [load_seen_courses]
    | malformed => cases copyOk <;> simp [load_seen_courses]
    | parsed o =>
      cases o with
      | none => cases copyOk <;> simp [load_seen_courses]
      | some v => cases v <;> cases copyOk <;> simp [load_seen_courses]
  · intro hm
    subst hm
    rfl
  · intro hm hc
    subst hm
    subst hc
    rfl

/-- C6 witness: a missing file loads as empty with no backup; a malformed
file with a working backup copy loads as empty after making the backup. -/
theorem C6_witness :
    load_seen_courses .missing true = .ok [] false ∧
    load_seen_courses .malformed true = .ok [] true :=
  ⟨(C6_corrupt_state_recovery .missing true).2.1 rfl,
    (C6_corrupt_state_recovery .malformed true).2.2 rfl rfl⟩

/-- C4 counterexample: a cycle that succeeds (returns `True`) without any
new-item notification leaves `consecutive_failures` untouched instead of
resetting it to 0 — the reset at source line 209 only runs after a
successful notification, so from a state with three recorded failures a
successful empty cycle keeps the counter at 3. -/
theorem C4_counterexample :
    (check_for_new_courses stateCf3 envEmptyFetch).ok = true ∧
    ¬((check_for_new_courses stateCf3 envEmptyFetch).state.consecutive_failures = 0) := by
  decide

/-- C4 amended: on a successful cycle, `last_successful_cycle` is set to
the current time, and `consecutive_failures` is reset to 0 only when a
non-empty new-item batch was notified successfully; a successful cycle
with no new items leaves the counter unchanged, and a cycle whose
notification failed increments it by 1 even though the cycle still counts
as successful.  On a failed cycle the counter is incremented by 1, and
then reset to 0 by the recovery path when the threshold is reached and the
scraper restart succeeds. -/
theorem C4_health_counters (s : AgentState) (env : CycleEnv) :
    ((check_for_new_courses s env).ok = true →
      (check_for_new_courses s env).state.last_successful_check = some env.now ∧
      (check_for_new_courses s env).state.consecutive_failures =
        (if (check_for_new_courses s env).newBatch = [] then s.consecutive_failures
         else if env.notify = .ret true then 0
         else s.consecutive_failures + 1)) ∧
    ((check_for_new_courses s env).ok = false →
      (check_for_new_courses s env).state.consecutive_failures =
        (if s.restart_on_failure = true ∧
            s.max_consecutive_failures ≤ s.consecutive_failures + 1
         then (if env.restart = .ok then 0 else s.consecutive_failures + 1)
         else s.consecutive_failures + 1)) := by
  constructor
  · intro h
    refine ⟨(check_ok_shape s env h).2.2.2, ?_⟩
    by_cases h1 : s.scraperUp = false ∧ env.initRaises = true
    · rw [check_init_raises s env h1.1 h1.2] at h
      rw [(cycleExcept_parts { s with last_check := some env.now }
        env.restart none [] []).1] at h
      exact absurd h (by simp)
    · have hre : s.scraperUp = true ∨ env.initRaises = false := by
        rcases not_and_or.1 h1 with h2 | h2
        · exact Or.inl (by simpa using h2)
        · exact Or.inr (by simpa using h2)
      cases hf : env.fetch with
      | raises =>
        rw [check_fetch_raises s env hre hf] at h
        rw [(cycleExcept_parts { s with last_check := some env.now, scraperUp := true }
          env.restart none [] []).1] at h
        exact absurd h (by simp)
      | retNone =>
        rw [check_retNone s env hre hf,
          afterFetch_empty { s with last_check := some env.now, scraperUp := true } env []
            (by rfl), cycleFinish_cf, cycleFinish_newBatch, if_pos (by rfl)]
      | ret cs =>
        rw [check_ret s env cs hre hf] at h ⊢
        by_cases hnb : (diffCourses s.seen_courses env.now cs).1 = []
        · rw [afterFetch_empty { s with last_check := some env.now, scraperUp := true }
            env cs hnb, cycleFinish_cf, cycleFinish_newBatch, if_pos hnb]
        · cases hn : env.notify with
          | raises =>
            rw [afterFetch_notify_raises
              { s with last_check := some env.now, scraperUp := true } env cs hnb hn] at h
            rw [(cycleExcept_parts
              { s with last_check := some env.now, scraperUp := true,
                       courses_found := s.courses_found + cs.length } env.restart
              (some (diffCourses s.seen_courses env.now cs).1)
              (diffCourses s.seen_courses env.now cs).1
              (diffCourses s.seen_courses env.now cs).2).1] at h
            exact absurd h (by simp)
          | ret b =>
            cases b
            · rw [afterFetch_notify_false
                { s with last_check := some env.now, scraperUp := true } env cs hnb hn,
                cycleFinish_cf, cycleFinish_newBatch, if_neg hnb, if_neg (by simp)]
            · rw [afterFetch_notify_true
                { s with last_check := some env.now, scraperUp := true } env cs hnb hn,
                cycleFinish_cf, cycleFinish_newBatch, if_neg hnb, if_pos rfl]
  · intro h
    exact (check_fail s env h).2.2.2.2.2.2.2

/-- C4 witness: a failing fetch from the initial state increments
`consecutive_failures` to 1, and a successful empty cycle sets
`last_successful_cycle`. -/
theorem C4_witness :
    (check_for_new_courses stateEmpty failEnv).ok = false ∧
    (check_for_new_courses stateEmpty failEnv).state.consecutive_failures = 1 ∧
    (check_for_new_courses stateEmpty envEmptyFetch).state.last_successful_check =
      some envEmptyFetch.now := by
  have h1 := (C4_health_counters stateEmpty failEnv).2 (by decide)
  have h2 := (C4_health_counters stateEmpty envEmptyFetch).1 (by decide)
  refine ⟨by decide, ?_, h2.1⟩
  rw [h1]
  decide

/-- C3 counterexample: five consecutive failing cycles from a fresh state
do fire the recovery exactly once, but when the recovery attempt itself
fails (the scraper constructor raises), `consecutive_failures` is NOT
reset to 0 afterwards — it stays at 5 — contradicting the claim that the
reset happens even though recovery failures are tolerated. -/
theorem C3_counterexample :
    (∀ r ∈ (runCycles stateEmpty [failEnv, failEnv, failEnv, failEnv, failEnvBad]).2,
      r.ok = false) ∧
    restartCount
      (runCycles stateEmpty [failEnv, failEnv, failEnv, failEnv, failEnvBad]).2 = 1 ∧
    ¬((runCycles stateEmpty
        [failEnv, failEnv, failEnv, failEnv, failEnvBad]).1.consecutive_failures = 0) := by
  decide

/-- C3 amended: in a run of exactly `max_consecutive_failures = 5`
consecutive failed cycles starting from a zero failure count with
`restart_on_failure` enabled, the source-recreate event fires exactly once
— at the fifth failure and never before; afterwards `consecutive_failures`
is 0 when the recovery attempt succeeded, and is left at the threshold
value 5 when the recovery attempt itself failed (the failure is caught and
logged, never fatal — the run is a total function). -/
theorem C3_recovery_trigger (s : AgentState) (e1 e2 e3 e4 e5 : CycleEnv)
    (hcf : s.consecutive_failures = 0) (hmax : s.max_consecutive_failures = 5)
    (hrof : s.restart_on_failure = true)
    (hfail : ∀ r ∈ (runCycles s [e1, e2, e3, e4, e5]).2, r.ok = false) :
    ((runCycles s [e1, e2, e3, e4, e5]).2.map (fun r => r.restartFired)) =
      [false, false, false, false, true] ∧
    restartCount (runCycles s [e1, e2, e3, e4, e5]).2 = 1 ∧
    (e5.restart = .ok →
      (runCycles s [e1, e2, e3, e4, e5]).1.consecutive_failures = 0) ∧
    (¬e5.restart = .ok →
      (runCycles s [e1, e2, e3, e4, e5]).1.consecutive_failures =
        s.max_consecutive_failures) := by
  obtain ⟨-, -, -, hrof1, hmax1, -, hiff1, hcf1⟩ :=
    check_fail s e1 (hfail _ (by simp [runCycles]))
  obtain ⟨-, -, -, hrof2, hmax2, -, hiff2, hcf2⟩ :=
    check_fail (check_for_new_courses s e1).state e2 (hfail _ (by simp [runCycles]))
  obtain ⟨-, -, -, hrof3, hmax3, -, hiff3, hcf3⟩ :=
    check_fail (check_for_new_courses (check_for_new_courses s e1).state e2).state e3
      (hfail _ (by simp [runCycles]))
  obtain ⟨-, -, -, hrof4, hmax4, -, hiff4, hcf4⟩ :=
    check_fail (check_for_new_courses (check_for_new_courses
      (check_for_new_courses s e1).state e2).state e3).state e4
      (hfail _ (by simp [runCycles]))
  obtain ⟨-, -, -, hrof5, hmax5, -, hiff5, hcf5⟩ :=
    check_fail (check_for_new_courses (check_for_new_courses (check_for_new_courses
      (check_for_new_courses s e1).state e2).state e3).state e4).state e5
      (hfail _ (by simp [runCycles]))
  have hc1 : ¬(s.restart_on_failure = true ∧
      s.max_consecutive_failures ≤ s.consecutive_failures + 1) := by
    rintro ⟨-, hle⟩
    rw [hmax, hcf] at hle
    omega
  rw [if_neg hc1] at hcf1
  have hfired1 : (check_for_new_courses s e1).restartFired = false := by
    cases hb : (check_for_new_courses s e1).restartFired
    · rfl
    · exact absurd (hiff1.1 hb) hc1
  have hc2 : ¬((check_for_new_courses s e1).state.restart_on_failure = true ∧
      (check_for_new_courses s e1).state.max_consecutive_failures ≤
        (check_for_new_courses s e1).state.consecutive_failures + 1) := by
    rintro ⟨-, hle⟩
    rw [hmax1, hmax, hcf1, hcf] at hle
    omega
  rw [if_neg hc2] at hcf2
  have hfired2 : (check_for_new_courses
      (check_for_new_courses s e1).state e2).restartFired = false := by
    cases hb : (check_for_new_courses (check_for_new_courses s e1).state e2).restartFired
    · rfl
    · exact absurd (hiff2.1 hb) hc2
  have hc3 : ¬((check_for_new_courses (check_for_new_courses s e1).state
        e2).state.restart_on_failure = true ∧
      (check_for_new_courses (check_for_new_courses s e1).state
        e2).state.max_consecutive_failures ≤
      (check_for_new_courses (check_for_new_courses s e1).state
        e2).state.consecutive_failures + 1) := by
    rintro ⟨-, hle⟩
    rw [hmax2, hmax1, hmax, hcf2, hcf1, hcf] at hle
    omega
  rw [if_neg hc3] at hcf3
  have hfired3 : (check_for_new_courses (check_for_new_courses
      (check_for_new_courses s e1).state e2).state e3).restartFired = false := by
    cases hb : (check_for_new_courses (check_for_new_courses
        (check_for_new_courses s e1).state e2).state e3).restartFired
    · rfl
    · exact absurd (hiff3.1 hb) hc3
  have hc4 : ¬((check_for_new_courses (check_for_new_courses
        (check_for_new_courses s e1).state e2).state e3).state.restart_on_failure = true ∧
      (check_for_new_courses (check_for_new_courses
        (check_for_new_courses s e1).state e2).state e3).state.max_consecutive_failures ≤
      (check_for_new_courses (check_for_new_courses
        (check_for_new_courses s e1).state e2).state e3).state.consecutive_failures + 1) := by
    rintro ⟨-, hle⟩
    rw [hmax3, hmax2, hmax1, hmax, hcf3, hcf2, hcf1, hcf] at hle
    omega
  rw [if_neg hc4] at hcf4
  have hfired4 : (check_for_new_courses (check_for_new_courses (check_for_new_courses
      (check_for_new_courses s e1).state e2).state e3).state e4).restartFired = false := by
    cases hb : (check_for_new_courses (check_for_new_courses (check_for_new_courses
        (check_for_new_courses s e1).state e2).state e3).state e4).restartFired
    · rfl
    · exact absurd (hiff4.1 hb) hc4
  have hc5 : ((check_for_new_courses (check_for_new_courses (check_for_new_courses
        (check_for_new_courses s e1).state e2).state e3).state
        e4).state.restart_on_failure = true ∧
      (check_for_new_courses (check_for_new_courses (check_for_new_courses
        (check_for_new_courses s e1).state e2).state e3).state
        e4).state.max_consecutive_failures ≤
      (check_for_new_courses (check_for_new_courses (check_for_new_courses
        (check_for_new_courses s e1).state e2).state e3).state
        e4).state.consecutive_failures + 1) := by
    constructor
    · rw [hrof4, hrof3, hrof2, hrof1, hrof]
    · rw [hmax4, hmax3, hmax2, hmax1, hmax, hcf4, hcf3, hcf2, hcf1, hcf]
  rw [if_pos hc5] at hcf5
  have hfired5 : (check_for_new_courses (check_for_new_courses (check_for_new_courses
      (check_for_new_courses (check_for_new_courses s e1).state e2).state e3).state
      e4).state e5).restartFired = true := hiff5.2 hc5
  refine ⟨?_, ?_, ?_, ?_⟩
  · simp only [runCycles, List.map_cons, List.map_nil]
    rw [hfired1, hfired2, hfired3, hfired4, hfired5]
  · simp only [restartCount, runCycles, List.filter_cons, List.filter_nil]
    rw [hfired1, hfired2, hfired3, hfired4, hfired5]
    simp
  · intro hr
    have hfin : (runCycles s [e1, e2, e3, e4, e5]).1 =
        (check_for_new_courses (check_for_new_courses (check_for_new_courses
          (check_for_new_courses (check_for_new_courses s e1).state e2).state e3).state
          e4).state e5).state := by
      simp [runCycles]
    rw [hfin, hcf5, if_pos hr]
  · intro hr
    have hfin : (runCycles s [e1, e2, e3, e4, e5]).1 =
        (check_for_new_courses (check_for_new_courses (check_for_new_courses
          (check_for_new_courses (check_for_new_courses s e1).state e2).state e3).state
          e4).state e5).state := by
      simp [runCycles]
    rw [hfin, hcf5, if_neg hr, hcf4, hcf3, hcf2, hcf1, hcf, hmax]

/-- C3 witness: five failing cycles with a working recovery path fire the
restart once and leave the failure counter at 0. -/
theorem C3_witness :
    restartCount (runCycles stateEmpty [failEnv, failEnv, failEnv, failEnv, failEnv]).2 = 1 ∧
    (runCycles stateEmpty
      [failEnv, failEnv, failEnv, failEnv, failEnv]).1.consecutive_failures = 0 := by
  have h := C3_recovery_trigger stateEmpty failEnv failEnv failEnv failEnv failEnv
    rfl rfl rfl (by decide)
  exact ⟨h.2.1, h.2.2.1 rfl⟩

theorem cycleFinish_c9 (st : AgentState) (env : CycleEnv) (nb : List Item) (cur : SeenMap)
    (sv0 : List SaveEvent) (no : Option (List Item))
    (hsv : ∀ m, SaveEvent.endOfCycle m ∉ sv0 ∧ SaveEvent.afterPrune m ∉ sv0) :
    (∃ m, SaveEvent.endOfCycle m ∈ (cycleFinish st env nb cur sv0 no).saves) ∧
    ((∃ m, SaveEvent.afterPrune m ∈ (cycleFinish st env nb cur sv0 no).saves) ↔
      ¬((cycleFinish st env nb cur sv0 no).pruned = [])) ∧
    (∀ m, SaveEvent.endOfCycle m ∈ (cycleFinish st env nb cur sv0 no).saves →
      (cleanup_old_courses m env.now).1 =
        (cycleFinish st env nb cur sv0 no).state.seen_courses ∧
      (cleanup_old_courses m env.now).2 = (cycleFinish st env nb cur sv0 no).pruned) := by
  rw [cycleFinish_saves, cycleFinish_pruned, cycleFinish_seen]
  refine ⟨⟨commitPending st.seen_courses cur, by simp⟩, ?_, ?_⟩
  · by_cases hcl :
        (cleanup_old_courses (commitPending st.seen_courses cur) env.now).2 = []
    · constructor
      · rintro ⟨m, hm⟩
        rw [List.mem_append] at hm
        rcases hm with hm | hm
        · rw [List.mem_append, List.mem_singleton] at hm
          rcases hm with hm | hm
          · exact absurd hm (hsv m).2
          · exact absurd hm (by simp)
        · rw [if_pos hcl] at hm
          simp at hm
      · intro hne
        exact absurd hcl hne
    · constructor
      · intro _
        exact hcl
      · intro _
        refine ⟨(cleanup_old_courses (commitPending st.seen_courses cur) env.now).1, ?_⟩
        rw [if_neg hcl]
        simp
  · intro m hm
    rw [List.mem_append] at hm
    rcases hm with hm | hm
    · rw [List.mem_append, List.mem_singleton] at hm
      rcases hm with hm | hm
      · exact absurd hm (hsv m).1
      · have : m = commitPending st.seen_courses cur := by
          injection hm
        subst this
        exact ⟨rfl, rfl⟩
    · by_cases hcl :
          (cleanup_old_courses (commitPending st.seen_courses cur) env.now).2 = []
      · rw [if_pos hcl] at hm
        simp at hm
      · rw [if_neg hcl] at hm
        rw [List.mem_singleton] at hm
        exact absurd hm (by simp)

/-- C9: Persistence schedule.  Every cycle that completes its body records
an end-of-cycle persist of the (pending-committed) SeenSet, regardless of
whether anything changed — including zero-new-item cycles; a further
persist after pruning is recorded exactly when the prune pass removed at
least one entry; and pruning the persisted end-of-cycle snapshot yields
precisely the cycle's final in-memory SeenSet and its removed-id list. -/
theorem C9_persistence_schedule (s : AgentState) (env : CycleEnv)
    (hok : (check_for_new_courses s env).ok = true) :
    (∃ m, SaveEvent.endOfCycle m ∈ (check_for_new_courses s env).saves) ∧
    ((∃ m, SaveEvent.afterPrune m ∈ (check_for_new_courses s env).saves) ↔
      ¬((check_for_new_courses s env).pruned = [])) ∧
    (∀ m, SaveEvent.endOfCycle m ∈ (check_for_new_courses s env).saves →
      (cleanup_old_courses m env.now).1 =
        (check_for_new_courses s env).state.seen_courses ∧
      (cleanup_old_courses m env.now).2 = (check_for_new_courses s env).pruned) := by
  by_cases h1 : s.scraperUp = false ∧ env.initRaises = true
  · rw [check_init_raises s env h1.1 h1.2] at hok
    rw [(cycleExcept_parts { s with last_check := some env.now }
      env.restart none [] []).1] at hok
    exact absurd hok (by simp)
  · have hre : s.scraperUp = true ∨ env.initRaises = false := by
      rcases not_and_or.1 h1 with h2 | h2
      · exact Or.inl (by simpa using h2)
      · exact Or.inr (by simpa using h2)
    cases hf : env.fetch with
    | raises =>
      rw [check_fetch_raises s env hre hf] at hok
      rw [(cycleExcept_parts { s with last_check := some env.now, scraperUp := true }
        env.restart none [] []).1] at hok
      exact absurd hok (by simp)
    | retNone =>
      rw [check_retNone s env hre hf,
        afterFetch_empty { s with last_check := some env.now, scraperUp := true } env []
          (by rfl)]
      exact cycleFinish_c9 _ env _ _ [] none (fun m => ⟨by simp, by simp⟩)
    | ret cs =>
      rw [check_ret s env cs hre hf] at hok ⊢
      by_cases hnb : (diffCourses s.seen_courses env.now cs).1 = []
      · rw [afterFetch_empty { s with last_check := some env.now, scraperUp := true }
          env cs hnb]
        exact cycleFinish_c9 _ env _ _ [] none (fun m => ⟨by simp, by simp⟩)
      · cases hn : env.notify with
        | raises =>
          rw [afterFetch_notify_raises
            { s with last_check := some env.now, scraperUp := true } env cs hnb hn] at hok
          rw [(cycleExcept_parts
            { s with last_check := some env.now, scraperUp := true,
                     courses_found := s.courses_found + cs.length } env.restart
            (some (diffCourses s.seen_courses env.now cs).1)
            (diffCourses s.seen_courses env.now cs).1
            (diffCourses s.seen_courses env.now cs).2).1] at hok
          exact absurd hok (by simp)
        | ret b =>
          cases b
          · rw [afterFetch_notify_false
              { s with last_check := some env.now, scraperUp := true } env cs hnb hn]
            exact cycleFinish_c9 _ env _ _ [] _ (fun m => ⟨by simp, by simp⟩)
          · rw [afterFetch_notify_true
              { s with last_check := some env.now, scraperUp := true } env cs hnb hn]
            exact cycleFinish_c9 _ env _ _ [SaveEvent.afterNotifySuccess _] _
              (fun m => ⟨by simp, by simp⟩)

/-- C9 witness: a successful two-new-item cycle on the empty state records
an end-of-cycle persist, and records an after-prune persist exactly when
something was pruned. -/
theorem C9_witness :
    (∃ m, SaveEvent.endOfCycle m ∈ (check_for_new_courses stateEmpty envABtrue).saves) ∧
    ((∃ m, SaveEvent.afterPrune m ∈ (check_for_new_courses stateEmpty envABtrue).saves) ↔
      ¬((check_for_new_courses stateEmpty envABtrue).pruned = [])) := by
  have h := C9_persistence_schedule stateEmpty envABtrue (by decide)
  exact ⟨h.1, h.2.1⟩

theorem pending_entry_count (seen : SeenMap) (now : Int) (cs : List Item) (id : String)
    (e : SeenEntry) (h : dictGet (diffCourses seen now cs).2 id = some e) :
    ∃ k, e.seen_count = some k ∧ 1 ≤ k ∧
      (dictGet seen id = none → k = 1) ∧
      (∀ old, dictGet seen id = some old → k = old.seen_count.getD 0 + 1) := by
  rw [diffCourses_get] at h
  cases hp : pickLast (fun c : Item => c.id = id) cs with
  | none =>
    rw [hp] at h
    exact absurd h (by simp)
  | some c =>
    rw [hp] at h
    simp at h
    obtain ⟨hcmem, hcid⟩ := pickLast_mem hp
    subst h
    refine ⟨(match dictGet seen id with
      | some e0 => e0.seen_count.getD 0
      | none => 0) + 1, ?_, Nat.succ_le_succ (Nat.zero_le _), ?_, ?_⟩
    · rw [mkEntryCommitted_seen_count, hcid]
    · intro hnone
      rw [hnone]
    · intro old hold
      rw [hold]

/-- C10: SeenEntry count invariant.  Every record the cycle prepares in
`current_course_ids` carries `seen_count = some k` with `k ≥ 1`: a newly
seen id gets exactly 1, and a previously seen id gets its prior count
(read as 0 when the stored record lacks the key) plus 1.  Moreover every
entry of the committed SeenSet after the cycle either is one of those
prepared records or was already stored before the cycle, so no operation
ever stores an entry with `seen_count` below 1. -/
theorem C10_seen_count_invariant (s : AgentState) (env : CycleEnv) (id : String)
    (e : SeenEntry) :
    (dictGet (check_for_new_courses s env).pending id = some e →
      ∃ k, e.seen_count = some k ∧ 1 ≤ k ∧
        (dictGet s.seen_courses id = none → k = 1) ∧
        (∀ old, dictGet s.seen_courses id = some old →
          k = old.seen_count.getD 0 + 1)) ∧
    (dictGet (check_for_new_courses s env).state.seen_courses id = some e →
      dictGet (check_for_new_courses s env).pending id = some e ∨
        dictGet s.seen_courses id = some e) := by
  by_cases h1 : s.scraperUp = false ∧ env.initRaises = true
  · rw [check_init_raises s env h1.1 h1.2, cycleExcept_pending,
      (cycleExcept_parts { s with last_check := some env.now }
        env.restart none [] []).2.2.2.2.2.1]
    constructor
    · intro h
      exact absurd h (by simp [dictGet])
    · intro h
      exact Or.inr h
  · have hre : s.scraperUp = true ∨ env.initRaises = false := by
      rcases not_and_or.1 h1 with h2 | h2
      · exact Or.inl (by simpa using h2)
      · exact Or.inr (by simpa using h2)
    cases hf : env.fetch with
    | raises =>
      rw [check_fetch_raises s env hre hf, cycleExcept_pending,
        (cycleExcept_parts { s with last_check := some env.now, scraperUp := true }
          env.restart none [] []).2.2.2.2.2.1]
      constructor
      · intro h
        exact absurd h (by simp [dictGet])
      · intro h
        exact Or.inr h
    | retNone =>
      rw [check_retNone s env hre hf, afterFetch_pending,
        afterFetch_empty { s with last_check := some env.now, scraperUp := true } env []
          (by rfl), cycleFinish_seen]
      constructor
      · intro h
        exact pending_entry_count s.seen_courses env.now [] id e h
      · intro h
        have h2 := cleanup_sub _ env.now h
        rcases commitPending_some_src (diffCourses_wf s.seen_courses env.now []) h2 with
          hc | hc
        · exact Or.inl hc
        · exact Or.inr hc
    | ret cs =>
      rw [check_ret s env cs hre hf, afterFetch_pending]
      by_cases hnb : (diffCourses s.seen_courses env.now cs).1 = []
      · rw [afterFetch_empty { s with last_check := some env.now, scraperUp := true }
          env cs hnb, cycleFinish_seen]
        constructor
        · intro h
          exact pending_entry_count s.seen_courses env.now cs id e h
        · intro h
          have h2 := cleanup_sub _ env.now h
          rcases commitPending_some_src (diffCourses_wf s.seen_courses env.now cs) h2 with
            hc | hc
          · exact Or.inl hc
          · exact Or.inr hc
      · cases hn : env.notify with
        | raises =>
          rw [afterFetch_notify_raises
            { s with last_check := some env.now, scraperUp := true } env cs hnb hn,
            (cycleExcept_parts
              { s with last_check := some env.now, scraperUp := true,
                       courses_found := s.courses_found + cs.length } env.restart
              (some (diffCourses s.seen_courses env.now cs).1)
              (diffCourses s.seen_courses env.now cs).1
              (diffCourses s.seen_courses env.now cs).2).2.2.2.2.2.1]
          constructor
          · intro h
            exact pending_entry_count s.seen_courses env.now cs id e h
          · intro h
            exact Or.inr h
        | ret b =>
          cases b
          · rw [afterFetch_notify_false
              { s with last_check := some env.now, scraperUp := true } env cs hnb hn,
              cycleFinish_seen]
            constructor
            · intro h
              exact pending_entry_count s.seen_courses env.now cs id e h
            · intro h
              have h2 := cleanup_sub _ env.now h
              rcases commitPending_some_src (diffCourses_wf s.seen_courses env.now cs)
                h2 with hc | hc
              · exact Or.inl hc
              · exact Or.inr hc
          · rw [afterFetch_notify_true
              { s with last_check := some env.now, scraperUp := true } env cs hnb hn,
              cycleFinish_seen]
            constructor
            · intro h
              exact pending_entry_count s.seen_courses env.now cs id e h
            · intro h
              have h2 := cleanup_sub _ env.now h
              rcases commitPending_some_src (diffCourses_wf s.seen_courses env.now cs)
                h2 with hc | hc
              · exact Or.inl hc
              · rcases commitNew_some_src hc with hc2 | hc2
                · exact Or.inl hc2
                · exact Or.inr hc2

/-- C10 witness: in the first cycle on the empty state, the prepared
record for item `a` has `seen_count = some 1`, which is at least 1 and
equals 1 because the id was new. -/
theorem C10_witness :
    ∃ k, ({ title := "A", url := "ua", first_seen := some (TimeVal.iso 100),
            last_seen := some (TimeVal.iso 100), seen_count := some 1 } : SeenEntry).seen_count
        = some k ∧ 1 ≤ k ∧
      (dictGet stateEmpty.seen_courses "a" = none → k = 1) ∧
      (∀ old, dictGet stateEmpty.seen_courses "a" = some old →
        k = old.seen_count.getD 0 + 1) := by
  exact (C10_seen_count_invariant stateEmpty envABtrue "a"
    { title := "A", url := "ua", first_seen := some (TimeVal.iso 100),
      last_seen := some (TimeVal.iso 100), seen_count := some 1 }).1 (by decide)

/-- C1: At-least-once delivery on notifier failure.  In a cycle whose
fetch returns a list containing a new item `X` and whose Notifier returns
`false`, the cycle still returns success, `X` is in the notified batch,
but after the cycle `X` is absent from the committed SeenSet and from
every snapshot persisted during the cycle, while the pending
last-seen/seen-count updates for previously seen fetched items are still
committed; consequently `X` is classified as new again on any following
cycle whose fetch still returns it. -/
theorem C1_at_least_once (s : AgentState) (env : CycleEnv) (cs : List Item) (X : Item)
    (hwf : dictWF s.seen_courses)
    (hre : s.scraperUp = true ∨ env.initRaises = false)
    (hf : env.fetch = .ret cs)
    (hX : X ∈ cs) (hnew : dictGet s.seen_courses X.id = none)
    (hn : env.notify = .ret false) :
    X ∈ (check_for_new_courses s env).newBatch ∧
    (check_for_new_courses s env).notifiedBatch =
      some (check_for_new_courses s env).newBatch ∧
    dictGet (check_for_new_courses s env).state.seen_courses X.id = none ∧
    (∀ sv ∈ (check_for_new_courses s env).saves, dictGet sv.snapshot X.id = none) ∧
    (∀ id old, dictGet s.seen_courses id = some old → (∃ c ∈ cs, c.id = id) →
      ∃ c, c ∈ cs ∧ c.id = id ∧
        dictGet (check_for_new_courses s env).state.seen_courses id =
          some (mkEntryCommitted s.seen_courses env.now c)) ∧
    (∀ env2 cs2, env2.fetch = .ret cs2 → X ∈ cs2 →
      X ∈ (check_for_new_courses (check_for_new_courses s env).state env2).newBatch) := by
  have hXn : X ∈ cs.filter (fun c => (dictGet s.seen_courses c.id).isNone) := by
    rw [List.mem_filter]
    refine ⟨hX, ?_⟩
    rw [hnew]
    rfl
  have hnb : ¬(diffCourses s.seen_courses env.now cs).1 = [] := by
    rw [diffCourses_newBatch]
    intro hc
    rw [hc] at hXn
    simp at hXn
  have hnewB : X ∈ (check_for_new_courses s env).newBatch := by
    rw [check_newBatch s env cs hre hf]
    exact hXn
  have hok : (check_for_new_courses s env).ok = true := by
    rw [check_ret s env cs hre hf,
      afterFetch_notify_false { s with last_check := some env.now, scraperUp := true }
        env cs hnb hn]
    exact cycleFinish_ok _ _ _ _ _ _
  have habsent : dictGet (check_for_new_courses s env).state.seen_courses X.id = none := by
    rw [check_ret s env cs hre hf,
      afterFetch_notify_false { s with last_check := some env.now, scraperUp := true }
        env cs hnb hn, cycleFinish_seen]
    exact cleanup_none _ env.now (commitPending_none _ _ hnew)
  refine ⟨hnewB, ?_, habsent, ?_, ?_, ?_⟩
  · rw [check_ret s env cs hre hf,
      afterFetch_notify_false { s with last_check := some env.now, scraperUp := true }
        env cs hnb hn, cycleFinish_notifiedBatch, cycleFinish_newBatch]
  · rw [check_ret s env cs hre hf,
      afterFetch_notify_false { s with last_check := some env.now, scraperUp := true }
        env cs hnb hn, cycleFinish_saves]
    intro sv hsv
    rw [List.mem_append] at hsv
    rcases hsv with hsv | hsv
    · rw [List.nil_append, List.mem_singleton] at hsv
      subst hsv
      exact commitPending_none _ _ hnew
    · by_cases hcl : (cleanup_old_courses (commitPending
          ({ s with last_check := some env.now, scraperUp := true} : AgentState).seen_courses
          (diffCourses s.seen_courses env.now cs).2) env.now).2 = []
      · rw [if_pos hcl] at hsv
        simp at hsv
      · rw [if_neg hcl] at hsv
        rw [List.mem_singleton] at hsv
        subst hsv
        exact cleanup_none _ env.now (commitPending_none _ _ hnew)
  · intro id old hold hex
    refine check_completed_entry s env cs hwf hre hf hok hex (Or.inr (Or.inr ?_))
    rw [hold]
    rfl
  · intro env2 cs2 hf2 hX2
    have hscr : (check_for_new_courses s env).state.scraperUp = true :=
      (check_ok_shape s env hok).2.1
    rw [check_newBatch (check_for_new_courses s env).state env2 cs2 (Or.inl hscr) hf2,
      List.mem_filter]
    refine ⟨hX2, ?_⟩
    rw [habsent]
    rfl

/-- C1 witness: with item `a` already seen, a fetch of `[b, a]` whose
notification fails leaves `b` new, uncommitted, and new again on the next
cycle. -/
theorem C1_witness :
    itemB ∈ (check_for_new_courses stateA envBAfalse).newBatch ∧
    dictGet (check_for_new_courses stateA envBAfalse).state.seen_courses "b" = none ∧
    itemB ∈ (check_for_new_courses (check_for_new_courses stateA envBAfalse).state
      envBAfalse).newBatch := by
  have h := C1_at_least_once stateA envBAfalse [itemB, itemA] itemB (by decide)
    (Or.inl rfl) rfl (by decide) (by decide) rfl
  exact ⟨h.1, h.2.2.1, h.2.2.2.2.2 envBAfalse [itemB, itemA] rfl (by decide)⟩

/-- C2: Idempotent re-poll.  Running the cycle twice on the same fetched
item list, with the first cycle's notification succeeding, gives a second
cycle with an empty new-item batch, no Notifier invocation (an empty batch
never calls the Notifier), and for every fetched item a committed record
whose `seen_count` is exactly one more than after the first cycle and
whose `first_seen` is unchanged. -/
theorem C2_idempotent_repoll (s : AgentState) (env1 env2 : CycleEnv) (cs : List Item)
    (hwf : dictWF s.seen_courses)
    (hre : s.scraperUp = true ∨ env1.initRaises = false)
    (hf1 : env1.fetch = .ret cs) (hn1 : env1.notify = .ret true)
    (hf2 : env2.fetch = .ret cs) :
    (check_for_new_courses s env1).ok = true ∧
    (check_for_new_courses (check_for_new_courses s env1).state env2).newBatch = [] ∧
    (check_for_new_courses (check_for_new_courses s env1).state env2).notifiedBatch =
      none ∧
    (check_for_new_courses (check_for_new_courses s env1).state env2).ok = true ∧
    (∀ c ∈ cs, ∃ e1 e2 k,
      dictGet (check_for_new_courses s env1).state.seen_courses c.id = some e1 ∧
      dictGet (check_for_new_courses
        (check_for_new_courses s env1).state env2).state.seen_courses c.id = some e2 ∧
      e1.seen_count = some k ∧ e2.seen_count = some (k + 1) ∧
      e2.first_seen = e1.first_seen) := by
  have hok1 : (check_for_new_courses s env1).ok = true := by
    rw [check_ret s env1 cs hre hf1]
    by_cases hnb : (diffCourses s.seen_courses env1.now cs).1 = []
    · rw [afterFetch_empty { s with last_check := some env1.now, scraperUp := true }
        env1 cs hnb]
      exact cycleFinish_ok _ _ _ _ _ _
    · rw [afterFetch_notify_true { s with last_check := some env1.now, scraperUp := true }
        env1 cs hnb hn1]
      exact cycleFinish_ok _ _ _ _ _ _
  have hentry1 : ∀ c ∈ cs, ∃ c2, c2 ∈ cs ∧ c2.id = c.id ∧
      dictGet (check_for_new_courses s env1).state.seen_courses c.id =
        some (mkEntryCommitted s.seen_courses env1.now c2) :=
    fun c hc => check_completed_entry s env1 cs hwf hre hf1 hok1 ⟨c, hc, rfl⟩
      (Or.inr (Or.inl hn1))
  have hwf1 := check_wf s env1 hwf
  have hscr1 : (check_for_new_courses s env1).state.scraperUp = true :=
    (check_ok_shape s env1 hok1).2.1
  have hfilter2 : cs.filter (fun c =>
      (dictGet (check_for_new_courses s env1).state.seen_courses c.id).isNone) = [] := by
    rw [List.filter_eq_nil_iff]
    intro c hc
    obtain ⟨c2, -, -, he⟩ := hentry1 c hc
    rw [he]
    simp
  have hnb2 : (diffCourses (check_for_new_courses s env1).state.seen_courses
      env2.now cs).1 = [] := by
    rw [diffCourses_newBatch, hfilter2]
  have hnewB2 : (check_for_new_courses (check_for_new_courses s env1).state
      env2).newBatch = [] := by
    rw [check_newBatch _ env2 cs (Or.inl hscr1) hf2, hfilter2]
  have hnot2 : (check_for_new_courses (check_for_new_courses s env1).state
      env2).notifiedBatch = none := by
    rw [check_ret _ env2 cs (Or.inl hscr1) hf2,
      afterFetch_empty { (check_for_new_courses s env1).state with
        last_check := some env2.now, scraperUp := true } env2 cs hnb2]
    exact cycleFinish_notifiedBatch _ _ _ _ _ _
  have hok2 : (check_for_new_courses (check_for_new_courses s env1).state env2).ok
      = true := by
    rw [check_ret _ env2 cs (Or.inl hscr1) hf2,
      afterFetch_empty { (check_for_new_courses s env1).state with
        last_check := some env2.now, scraperUp := true } env2 cs hnb2]
    exact cycleFinish_ok _ _ _ _ _ _
  refine ⟨hok1, hnewB2, hnot2, hok2, ?_⟩
  intro c hc
  obtain ⟨c2, hc2mem, hc2id, he1⟩ := hentry1 c hc
  obtain ⟨c3, hc3mem, hc3id, he2⟩ :=
    check_completed_entry (check_for_new_courses s env1).state env2 cs hwf1
      (Or.inl hscr1) hf2 hok2 ⟨c, hc, rfl⟩ (Or.inl hnb2)
  refine ⟨mkEntryCommitted s.seen_courses env1.now c2,
    mkEntryCommitted (check_for_new_courses s env1).state.seen_courses env2.now c3,
    (match dictGet s.seen_courses c.id with
      | some e0 => e0.seen_count.getD 0
      | none => 0) + 1, he1, he2, ?_, ?_, ?_⟩
  · rw [mkEntryCommitted_seen_count, hc2id]
  · rw [mkEntryCommitted_seen_count, hc3id, he1]
    show some ((mkEntryCommitted s.seen_courses env1.now c2).seen_count.getD 0 + 1) = _
    rw [mkEntryCommitted_seen_count, hc2id]
    rfl
  · obtain ⟨tv, htv⟩ := mkEntryCommitted_first_seen_isSome s.seen_courses env1.now c2
    have he1' : dictGet (check_for_new_courses s env1).state.seen_courses c3.id =
        some (mkEntryCommitted s.seen_courses env1.now c2) := by
      rw [hc3id]
      exact he1
    rw [mkEntryCommitted_first_seen_old
      (check_for_new_courses s env1).state.seen_courses env2.now c3 he1', htv]
    rfl

/-- C2 witness: two identical cycles on the empty state fetching
`[a, b]` — the second has no new items, and item `a`'s committed record
moves from `seen_count = 1` to `seen_count = 2` with `first_seen`
unchanged. -/
theorem C2_witness :
    (check_for_new_courses (check_for_new_courses stateEmpty envABtrue).state
      envABtrue).newBatch = [] ∧
    ∃ e1 e2 k,
      dictGet (check_for_new_courses stateEmpty envABtrue).state.seen_courses "a" =
        some e1 ∧
      dictGet (check_for_new_courses (check_for_new_courses stateEmpty envABtrue).state
        envABtrue).state.seen_courses "a" = some e2 ∧
      e1.seen_count = some k ∧ e2.seen_count = some (k + 1) ∧
      e2.first_seen = e1.first_seen := by
  have h := C2_idempotent_repoll stateEmpty envABtrue envABtrue [itemA, itemB]
    (by decide) (Or.inl rfl) rfl rfl rfl
  exact ⟨h.2.1, h.2.2.2.2 itemA (by decide)⟩
